import Mathlib

/-!
# Fibre Channel node service of the InfiniBox CSI driver

A shallow embedding of `storage/fcnode.go` and of `checkResponse` of
`api/client/restclient.go`.  Go strings are Lean strings, Go
errors are `Except String`, and everything the node service reaches outside
its own code (the injected `ioHandler`, the operating system, the mounter, the
management API) is an operation of an environment record `Env σ` over an
abstract host state `σ`.  Every function returns, next to its result, the
sequence of `Event`s it caused, in program order.
-/

namespace FcNode

/-! ## The Go string functions used by the source -/

/-- Go `strings.HasPrefix`. -/
def HasPrefix (s pre : String) : Bool := pre.data.isPrefixOf s.data

/-- Character-list worker of `strings.Contains`. -/
def containsL : List Char → List Char → Bool
  | [], sub => sub.isEmpty
  | c :: cs, sub => sub.isPrefixOf (c :: cs) || containsL cs sub

/-- Go `strings.Contains`. -/
def Contains (s sub : String) : Bool := containsL s.data sub.data

/-- Character-list worker of `strings.Replace(s, old, new, 1)`. -/
def replaceFirstL (old new : List Char) : List Char → List Char
  | [] => if old.isEmpty then new else []
  | c :: cs =>
    if old.isPrefixOf (c :: cs) then new ++ (c :: cs).drop old.length
    else c :: replaceFirstL old new cs

/-- Go `strings.Replace(s, old, new, 1)`: the first occurrence only. -/
def ReplaceFirst (s old new : String) : String :=
  ⟨replaceFirstL old.data new.data s.data⟩

/-- Character-list worker of `strings.Replace(s, old, new, -1)` for a non-empty
`old`; the counter is the number of characters of a match still to be skipped. -/
def replaceAllL (old new : List Char) : Nat → List Char → List Char
  | _, [] => []
  | skip + 1, _ :: cs => replaceAllL old new skip cs
  | 0, c :: cs =>
    if old.isPrefixOf (c :: cs) then new ++ replaceAllL old new (old.length - 1) cs
    else c :: replaceAllL old new 0 cs

/-- Go `strings.Replace(s, old, new, -1)` for a non-empty `old`. -/
def ReplaceAll (s old new : String) : String :=
  ⟨replaceAllL old.data new.data 0 s.data⟩

/-- Character-list worker of `strings.Split` for a non-empty separator: `cur`
is the piece being read, reversed; the counter skips the rest of a separator. -/
def splitL (sep : List Char) : Nat → List Char → List Char → List (List Char)
  | _, cur, [] => [cur.reverse]
  | skip + 1, cur, _ :: cs => splitL sep skip cur cs
  | 0, cur, c :: cs =>
    if sep.isPrefixOf (c :: cs) then cur.reverse :: splitL sep (sep.length - 1) [] cs
    else splitL sep 0 (c :: cur) cs

/-- Go `strings.Split(s, sep)` for a non-empty separator.  The result is never
empty: `Split "" sep` is the one-element list `[""]`. -/
def Split (s sep : String) : List String :=
  (splitL sep.data 0 [] s.data).map String.mk

/-! ## Events and the environment -/

deriving instance DecidableEq for Except

/-- What the node service does to the outside world, and the entries of the
functions of the source that the contracts speak about. -/
inductive Event where
  /-- Method `ioHandler.ReadDir`. -/
  | ReadDir (dirname : String)
  /-- Method `ioHandler.Lstat`. -/
  | Lstat (name : String)
  /-- Method `ioHandler.EvalSymlinks`. -/
  | EvalSymlinks (path : String)
  /-- Method `ioHandler.WriteFile`. -/
  | WriteFile (filename data : String)
  /-- Library call `filepath.EvalSymlinks` of `findDeviceForPath`. -/
  | osEvalSymlinks (path : String)
  /-- Entry of `findFcDisk`. -/
  | findFcDisk (wwn lun : String)
  /-- Entry of `getDisksWwids`. -/
  | getDisksWwids (wwid : String)
  /-- Entry of `scsiHostRescan`. -/
  | scsiHostRescan
  /-- Entry of `searchDisk`. -/
  | searchDisk
  /-- Entry of `AttachFCDisk`. -/
  | AttachFCDisk
  /-- Entry of `createFcConfigFile`, with the record and the staging path. -/
  | createFcConfigFile (mpathDevice : String) (isBlock : Bool) (volName mnt : String)
  /-- Management API `GetFCPorts`. -/
  | GetFCPorts
  /-- Mounter method `IsLikelyNotMountPoint`. -/
  | IsLikelyNotMountPoint (file : String)
  /-- Mounter method `Mount`. -/
  | Mount (source target fstype : String) (options : List String)
  /-- Mounter method `FormatAndMount`. -/
  | FormatAndMount (source target fstype : String) (options : List String)
  /-- Mounter method `Unmount`. -/
  | Unmount (target : String)
  /-- Library call `os.MkdirAll`. -/
  | MkdirAll (path : String)
  /-- Library call `os.Create`. -/
  | Create (name : String)
  /-- Library call `os.Open`. -/
  | Open (name : String)
  /-- Library call `os.RemoveAll`. -/
  | RemoveAll (path : String)
  /-- Library call `os.Stat`. -/
  | Stat (name : String)
  /-- Writing the JSON encoding of a record to the created file. -/
  | Encode (name : String) (mpathDevice : String) (isBlock : Bool) (volName : String)
  /-- Helper `pathExists` of the common service. -/
  | pathExists (path : String)
  /-- Helper `detachDisk`. -/
  | detachDisk (device : String)
  /-- Helper `findSlaveDevicesOnMultipath`. -/
  | findSlaveDevicesOnMultipath (dm : String)
  /-- Helper `ExecuteWithTimeout`. -/
  | ExecuteWithTimeout (mSeconds : Nat) (command : String) (args : List String)
  /-- Library call `exec.Command(name, args...).Output()`. -/
  | Output (name : String) (args : List String)
  /-- Common-service method `AddPortForHost`. -/
  | AddPortForHost (hostID : Int) (portType portName : String)
  /-- Management API `GetHostPort`. -/
  | GetHostPort (hostID : Int) (portName : String)
  deriving DecidableEq, Repr

/-- The interface `ioHandler` of the source, over a host state `σ`.  The three
reading methods observe the state; `WriteFile` may change it. -/
structure ioHandler (σ : Type) where
  /-- Names of the entries of a directory, or an error. -/
  ReadDir : σ → String → Except String (List String)
  /-- Whether the name can be stat-ed. -/
  Lstat : σ → String → Except String Unit
  /-- The path with its symbolic links resolved. -/
  EvalSymlinks : σ → String → Except String String
  /-- Writing a file. -/
  WriteFile : σ → String → String → Except String Unit × σ

/-- An error of the mounter or of `os.Stat`, with what `os.IsNotExist` says of it. -/
structure OsError where
  /-- The message. -/
  msg : String
  /-- Whether `os.IsNotExist` holds of the error. -/
  notExist : Bool
  deriving DecidableEq, Repr

/-- One FC port of the array, as listed by the management API. -/
structure FCPort where
  /-- The world-wide port name, colon separated. -/
  WWPn : String
  deriving DecidableEq, Repr

/-- One FC node of the array with its ports. -/
structure FCNode where
  /-- The ports of the node. -/
  Ports : List FCPort
  deriving DecidableEq, Repr

/-- The record `diskInfo` of the source. -/
structure diskInfo where
  /-- The multipath device path. -/
  MpathDevice : String
  /-- The block-mode flag. -/
  IsBlock : Bool
  /-- The volume name, the key of the record. -/
  VolName : String
  deriving DecidableEq, Repr

/-- What decoding a JSON document into a `diskInfo` sets: Go's decoder
overwrites the fields the document has and leaves the others as they were. -/
structure diskInfoFields where
  /-- The document's `MpathDevice`, when it has one. -/
  MpathDevice : Option String
  /-- The document's `IsBlock`, when it has one. -/
  IsBlock : Option Bool
  /-- The document's `VolName`, when it has one. -/
  VolName : Option String
  deriving DecidableEq, Repr

/-- Everything outside `fcnode.go` that the node service calls: the operating
system, the mounter, the management API and the helpers of the common service,
over a host state `σ`.  Operations that only observe return a result; the
others return the state they leave. -/
structure Env (σ : Type) where
  /-- The handler `&OSioHandler{}`. -/
  osio : ioHandler σ
  /-- Library call `filepath.EvalSymlinks`. -/
  osEvalSymlinks : σ → String → Except String String
  /-- Management API `GetFCPorts`. -/
  GetFCPorts : σ → Except String (List FCNode)
  /-- Mounter method `IsLikelyNotMountPoint`: the flag and the error, if any. -/
  IsLikelyNotMountPoint : σ → String → Bool × Option OsError
  /-- Mounter method `Mount`. -/
  Mount : σ → String → String → String → List String → Except String Unit × σ
  /-- Mounter method `FormatAndMount`. -/
  FormatAndMount : σ → String → String → String → List String → Except String Unit × σ
  /-- Mounter method `Unmount`. -/
  Unmount : σ → String → Except String Unit × σ
  /-- Library call `os.MkdirAll`. -/
  MkdirAll : σ → String → Except String Unit × σ
  /-- Library call `os.Create`. -/
  Create : σ → String → Except String Unit × σ
  /-- Writing a document to a created file. -/
  Write : σ → String → String → Except String Unit × σ
  /-- Library call `os.Open` and reading the file: its content. -/
  Open : σ → String → Except String String
  /-- Library call `os.RemoveAll`. -/
  RemoveAll : σ → String → Except String Unit × σ
  /-- Library call `os.Stat`: the error, if any. -/
  Stat : σ → String → Option OsError
  /-- The JSON document `encoding/json` writes for a record. -/
  jsonEncode : diskInfo → Except String String
  /-- The fields `encoding/json` reads from a document, and the error, if any
  (Go's decoder may have set fields before it reports an error). -/
  jsonDecode : String → Option String × diskInfoFields
  /-- Helper `pathExists` of the common service: its flag and its error, if any. -/
  pathExists : σ → String → Bool × Option String
  /-- Helper `detachDisk`. -/
  detachDisk : σ → String → Except String Unit × σ
  /-- Helper `findSlaveDevicesOnMultipath`. -/
  findSlaveDevicesOnMultipath : σ → String → List String
  /-- Helper `ExecuteWithTimeout`. -/
  ExecuteWithTimeout : σ → Nat → String → List String → Except String String × σ
  /-- Library call `exec.Command(name, args...).Output()`: the standard output. -/
  Output : σ → String → List String → Except String String
  /-- Common-service method `AddPortForHost`. -/
  AddPortForHost : σ → Int → String → String → Except String Unit × σ
  /-- Management API `GetHostPort` (the port it returns is not used). -/
  GetHostPort : σ → Int → String → Except String Unit

/-- The struct `Connector` of the source (its unused `io` field left out). -/
structure Connector where
  /-- The volume name. -/
  VolumeName : String
  /-- The target world-wide names. -/
  TargetWWNs : List String
  /-- The logical unit number. -/
  Lun : String
  /-- The world-wide identifiers. -/
  WWIDs : List String
  deriving DecidableEq, Repr

/-! ## Device discovery -/

section Discovery

variable {σ : Type}

/-- Source `findDeviceForPath`: the device name of a path `/dev/<name>`. -/
def findDeviceForPath (E : Env σ) (s : σ) (path : String) :
    Except String String × List Event :=
  (match E.osEvalSymlinks s path with
    | .error err => .error err
    | .ok devicePath =>
      match Split (ReplaceFirst devicePath "/host" "") "/" with
      | [_, p1, p2] =>
        if HasPrefix p1 "dev" then .ok p2
        else .error ("Illegal path for device " ++ ReplaceFirst devicePath "/host" "")
      | _ => .error ("Illegal path for device " ++ ReplaceFirst devicePath "/host" ""),
   [Event.osEvalSymlinks path])

/-- The loop of `findMultipathDeviceForDevice` over the entries of `/sys/block/`. -/
def findMultipathLoop (io : ioHandler σ) (s : σ) (disk : String) :
    List String → String × List Event
  | [] => ("", [])
  | name :: rest =>
    if HasPrefix name "dm-" then
      match io.Lstat s ("/sys/block/" ++ name ++ "/slaves/" ++ disk) with
      | .ok _ => ("/dev/" ++ name, [Event.Lstat ("/sys/block/" ++ name ++ "/slaves/" ++ disk)])
      | .error _ =>
        let r := findMultipathLoop io s disk rest
        (r.1, Event.Lstat ("/sys/block/" ++ name ++ "/slaves/" ++ disk) :: r.2)
    else findMultipathLoop io s disk rest

/-- Source `findMultipathDeviceForDevice`: the device-mapper parent of a
device, the empty string when it has none. -/
def findMultipathDeviceForDevice (E : Env σ) (io : ioHandler σ) (s : σ) (device : String) :
    Except String String × List Event :=
  match findDeviceForPath E s device with
  | (.error err, tr) => (.error err, tr)
  | (.ok disk, tr) =>
    match io.ReadDir s "/sys/block/" with
    | .ok dirs =>
      let r := findMultipathLoop io s disk dirs
      (.ok r.1, tr ++ Event.ReadDir "/sys/block/" :: r.2)
    | .error err2 => (.error err2, tr ++ [Event.ReadDir "/sys/block/"])

/-- The loop of `findFcDisk` over the entries of the by-path directory. -/
def findFcDiskLoop (E : Env σ) (io : ioHandler σ) (s : σ) (FcPath : String) :
    List String → (String × String) × List Event
  | [] => (("", ""), [])
  | name :: rest =>
    if Contains name FcPath then
      match io.EvalSymlinks s ("/host/dev/disk/by-path/" ++ name) with
      | .ok disk =>
        match findMultipathDeviceForDevice E io s disk with
        | (.ok dm, tr) =>
          ((disk, dm), Event.EvalSymlinks ("/host/dev/disk/by-path/" ++ name) :: tr)
        | (.error _, tr) =>
          let r := findFcDiskLoop E io s FcPath rest
          (r.1, Event.EvalSymlinks ("/host/dev/disk/by-path/" ++ name) :: tr ++ r.2)
      | .error _ =>
        let r := findFcDiskLoop E io s FcPath rest
        (r.1, Event.EvalSymlinks ("/host/dev/disk/by-path/" ++ name) :: r.2)
    else findFcDiskLoop E io s FcPath rest

/-- Source `findFcDisk`: the raw device and the device-mapper parent for a
world-wide name and a LUN. -/
def findFcDisk (E : Env σ) (io : ioHandler σ) (s : σ) (wwn lun : String) :
    (String × String) × List Event :=
  match io.ReadDir s "/host/dev/disk/by-path/" with
  | .ok dirs =>
    let r := findFcDiskLoop E io s ("-fc-0x" ++ wwn ++ "-lun-" ++ lun) dirs
    (r.1, Event.findFcDisk wwn lun :: Event.ReadDir "/host/dev/disk/by-path/" :: r.2)
  | .error _ => (("", ""), [Event.findFcDisk wwn lun, Event.ReadDir "/host/dev/disk/by-path/"])

/-- The loop of `getDisksWwids` over the entries of the by-id directory. -/
def getDisksWwidsLoop (E : Env σ) (io : ioHandler σ) (s : σ) (FcPath : String) :
    List String → (String × String) × List Event
  | [] => (("", ""), [])
  | name :: rest =>
    if name = FcPath then
      match io.EvalSymlinks s ("/dev/disk/by-id/" ++ name) with
      | .error _ => (("", ""), [Event.EvalSymlinks ("/dev/disk/by-id/" ++ name)])
      | .ok disk =>
        match findMultipathDeviceForDevice E io s disk with
        | (.error _, tr) =>
          ((disk, ""), Event.EvalSymlinks ("/dev/disk/by-id/" ++ name) :: tr)
        | (.ok _, tr) =>
          let r := getDisksWwidsLoop E io s FcPath rest
          (r.1, Event.EvalSymlinks ("/dev/disk/by-id/" ++ name) :: tr ++ r.2)
    else getDisksWwidsLoop E io s FcPath rest

/-- Source `getDisksWwids`: the raw device and the device-mapper parent for a
world-wide identifier.  The source returns inside the loop only when the
multipath lookup fails (`err1 != nil`), with the empty `dm` of that failure. -/
def getDisksWwids (E : Env σ) (io : ioHandler σ) (s : σ) (wwid : String) :
    (String × String) × List Event :=
  match io.ReadDir s "/dev/disk/by-id/" with
  | .ok dirs =>
    let r := getDisksWwidsLoop E io s ("scsi-" ++ wwid) dirs
    (r.1, Event.getDisksWwids wwid :: Event.ReadDir "/dev/disk/by-id/" :: r.2)
  | .error _ => (("", ""), [Event.getDisksWwids wwid, Event.ReadDir "/dev/disk/by-id/"])

/-- The loop of `scsiHostRescan` over the SCSI hosts; write errors are dropped. -/
def scsiHostRescanLoop (io : ioHandler σ) : σ → List String → σ × List Event
  | s, [] => (s, [])
  | s, f :: rest =>
    let r := scsiHostRescanLoop io (io.WriteFile s ("/sys/class/scsi_host/" ++ f ++ "/scan") "- - -").2 rest
    (r.1, Event.WriteFile ("/sys/class/scsi_host/" ++ f ++ "/scan") "- - -" :: r.2)

/-- Source `scsiHostRescan`. -/
def scsiHostRescan (io : ioHandler σ) (s : σ) : σ × List Event :=
  match io.ReadDir s "/sys/class/scsi_host/" with
  | .ok dirs =>
    let r := scsiHostRescanLoop io s dirs
    (r.1, Event.scsiHostRescan :: Event.ReadDir "/sys/class/scsi_host/" :: r.2)
  | .error _ => (s, [Event.scsiHostRescan, Event.ReadDir "/sys/class/scsi_host/"])

/-- The locator `searchDisk` calls for one candidate: `findFcDisk` when the
connector has target WWNs, `getDisksWwids` otherwise. -/
def locate (E : Env σ) (io : ioHandler σ) (c : Connector) (s : σ) (diskID : String) :
    (String × String) × List Event :=
  if c.TargetWWNs.length ≠ 0 then findFcDisk E io s diskID c.Lun
  else getDisksWwids E io s diskID

/-- The inner loop of `searchDisk`: one probing pass over the candidates.  The
variables `disk` and `dm` are those of the enclosing function: each probed
candidate overwrites them, and the loop breaks on a non-empty `dm`. -/
def probePass (E : Env σ) (io : ioHandler σ) (c : Connector) (s : σ) :
    List String → String × String → (String × String) × List Event
  | [], dd => (dd, [])
  | diskID :: rest, _ =>
    let r := locate E io c s diskID
    if r.1.2 ≠ "" then r
    else
      let r2 := probePass E io c s rest r.1
      (r2.1, r.2 ++ r2.2)

/-- The tail of `searchDisk` after the outer loop. -/
def searchDiskResult (dd : String × String) : Except String String :=
  if dd.1 = "" ∧ dd.2 = "" then .error "no fc disk found"
  else if dd.2 ≠ "" then .ok dd.2
  else .ok dd.1

/-- The candidate identifiers of `searchDisk`: the target WWNs when there are
any, the WWIDs otherwise. -/
def candidates (c : Connector) : List String :=
  if c.TargetWWNs.length ≠ 0 then c.TargetWWNs else c.WWIDs

/-- Source `searchDisk`.  The outer loop `for true` runs its body once with
`rescaned = false` and, unless a `dm` was found, once more with
`rescaned = true` after the rescan; both iterations are written out. -/
def searchDisk (E : Env σ) (io : ioHandler σ) (c : Connector) (s : σ) :
    Except String String × σ × List Event :=
  let p1 := probePass E io c s (candidates c) ("", "")
  if p1.1.2 ≠ "" then (searchDiskResult p1.1, s, Event.searchDisk :: p1.2)
  else
    let rs := scsiHostRescan io s
    let p2 := probePass E io c rs.1 (candidates c) p1.1
    (searchDiskResult p2.1, rs.1, Event.searchDisk :: (p1.2 ++ (rs.2 ++ p2.2)))

/-- Source `AttachFCDisk`. -/
def AttachFCDisk (E : Env σ) (io : ioHandler σ) (c : Connector) (s : σ) :
    Except String String × σ × List Event :=
  match searchDisk E io c s with
  | (.error err, s1, tr) => (.error err, s1, Event.AttachFCDisk :: tr)
  | (.ok devicePath, s1, tr) =>
    (.ok (ReplaceFirst devicePath "/host" ""), s1, Event.AttachFCDisk :: tr)

end Discovery

/-- The events that mark the entry of a function of the source. -/
def Event.isEntry : Event → Bool
  | .findFcDisk _ _ => true
  | .getDisksWwids _ => true
  | .scsiHostRescan => true
  | .searchDisk => true
  | .AttachFCDisk => true
  | .createFcConfigFile _ _ _ _ => true
  | _ => false

/-- The entry event of the locator `searchDisk` calls for a candidate. -/
def locateEvent (c : Connector) (diskID : String) : Event :=
  if c.TargetWWNs.length ≠ 0 then Event.findFcDisk diskID c.Lun
  else Event.getDisksWwids diskID

/-! ## Paths -/

/-- The worker of `path.Clean` on the elements of a path: `acc` holds the kept
elements, last first. -/
def cleanElems (rooted : Bool) : List (List Char) → List (List Char) → List (List Char)
  | acc, [] => acc.reverse
  | acc, e :: rest =>
    if e = [] ∨ e = ['.'] then cleanElems rooted acc rest
    else if e = ['.', '.'] then
      match acc with
      | top :: acc1 =>
        if top = ['.', '.'] then cleanElems rooted (e :: acc) rest
        else cleanElems rooted acc1 rest
      | [] => if rooted then cleanElems rooted [] rest else cleanElems rooted [e] rest
    else cleanElems rooted (e :: acc) rest

/-- Go `path.Clean` (and `filepath.Clean` on Linux). -/
def Clean (p : String) : String :=
  let elems := cleanElems (p.data.head? = some '/') [] (splitL ['/'] 0 [] p.data)
  let body : String := ⟨List.intercalate ['/'] elems⟩
  if p.data.head? = some '/' then "/" ++ body
  else if body = "" then "." else body

/-- Go `path.Join`: the non-empty elements joined by slashes and cleaned; the
empty string when every element is empty. -/
def Join (elems : List String) : String :=
  match elems.filter (fun e => e ≠ "") with
  | [] => ""
  | es => Clean ⟨List.intercalate ['/'] (es.map String.data)⟩

/-- The part of a path up to and including its last slash. -/
def dirPart : List Char → List Char
  | [] => []
  | c :: cs =>
    if cs.contains '/' then c :: dirPart cs
    else if c = '/' then ['/'] else []

/-- Go `filepath.Dir` on Linux. -/
def Dir (p : String) : String := Clean ⟨dirPart p.data⟩

/-- The text of a gRPC status error, as `Error()` gives it. -/
def statusError (code msg : String) : String :=
  "rpc error: code = " ++ code ++ " desc = " ++ msg

/-- Indexing a Go `map[string]string`: the empty string for a missing key. -/
def mapGet (m : List (String × String)) (k : String) : String :=
  (m.lookup k).getD ""

/-! ## Requests and mount specifications -/

/-- The access type of a CSI volume capability. -/
inductive AccessType where
  /-- No access type set. -/
  | unset
  /-- Block access. -/
  | Block
  /-- Mount access, with the mount flags. -/
  | Mount (MountFlags : List String)
  deriving DecidableEq, Repr

/-- The fields of `csi.NodePublishVolumeRequest` the node service could read. -/
structure NodePublishVolumeRequest where
  /-- The volume id, `<name>$$<protocol>`. -/
  VolumeId : String
  /-- The publish context. -/
  PublishContext : List (String × String)
  /-- The volume context. -/
  VolumeContext : List (String × String)
  /-- The volume capability, when given. -/
  VolumeCapability : Option AccessType
  /-- The target path. -/
  TargetPath : String
  /-- The staging path. -/
  StagingTargetPath : String
  /-- The read-only flag of the request. -/
  Readonly : Bool
  deriving DecidableEq, Repr

/-- The fields of `csi.NodeUnstageVolumeRequest`. -/
structure NodeUnstageVolumeRequest where
  /-- The volume id. -/
  VolumeId : String
  /-- The staging path. -/
  StagingTargetPath : String
  deriving DecidableEq, Repr

/-- The struct `fcDevice` of the source. -/
structure fcDevice where
  /-- The connector. -/
  connector : Connector
  /-- The disk (never set by the source). -/
  disk : String
  /-- The block-mode flag. -/
  isBlock : Bool
  deriving DecidableEq, Repr

/-- The struct `FCMounter` of the source, without its handles on the mounter,
which are operations of the environment here. -/
structure FCMounter where
  /-- The read-only flag. -/
  ReadOnly : Bool
  /-- The filesystem type. -/
  FsType : String
  /-- The mount options. -/
  MountOptions : List String
  /-- The target path. -/
  TargetPath : String
  /-- The staging path. -/
  StagePath : String
  /-- The device to mount. -/
  fcDisk : fcDevice
  deriving DecidableEq, Repr

/-- Go `GetMount().GetMountFlags()` of a volume capability. -/
def AccessType.GetMountFlags : AccessType → List String
  | .Mount flags => flags
  | _ => []

section Lifecycle

variable {σ : Type}

/-! ## Disk-state persistence -/

/-- The body of `createFcConfigFile`. -/
def writeConfig (E : Env σ) (conf : diskInfo) (mnt : String) (s : σ) :
    Except String Unit × σ × List Event :=
  let file := Join ["/host", mnt, conf.VolName ++ ".json"]
  match E.Create s file with
  | (.error err, s1) =>
    (.error ("fc: create " ++ file ++ " err " ++ err), s1, [Event.Create file])
  | (.ok _, s1) =>
    match E.jsonEncode conf with
    | .error err =>
      (.error ("fc: encode err: " ++ err), s1,
        [Event.Create file, Event.Encode file conf.MpathDevice conf.IsBlock conf.VolName])
    | .ok doc =>
      match E.Write s1 file doc with
      | (.error err, s2) =>
        (.error ("fc: encode err: " ++ err), s2,
          [Event.Create file, Event.Encode file conf.MpathDevice conf.IsBlock conf.VolName])
      | (.ok _, s2) =>
        (.ok (), s2,
          [Event.Create file, Event.Encode file conf.MpathDevice conf.IsBlock conf.VolName])

/-- Source `createFcConfigFile`. -/
def createFcConfigFile (E : Env σ) (conf : diskInfo) (mnt : String) (s : σ) :
    Except String Unit × σ × List Event :=
  let r := writeConfig E conf mnt s
  (r.1, r.2.1, Event.createFcConfigFile conf.MpathDevice conf.IsBlock conf.VolName mnt :: r.2.2)

/-- Decoding into a record: the fields of the document overwrite the record's. -/
def diskInfoFields.into (f : diskInfoFields) (conf : diskInfo) : diskInfo :=
  { MpathDevice := f.MpathDevice.getD conf.MpathDevice
    IsBlock := f.IsBlock.getD conf.IsBlock
    VolName := f.VolName.getD conf.VolName }

/-- Source `loadFcDiskInfoFromFile`: the error, if any, and the record `conf`
as the call leaves it. -/
def loadFcDiskInfoFromFile (E : Env σ) (conf : diskInfo) (mnt : String) (s : σ) :
    (Except String Unit × diskInfo) × List Event :=
  let file := Join ["/host", mnt, conf.VolName ++ ".json"]
  match E.Open s file with
  | .error err => ((.error ("fc: open " ++ file ++ " err " ++ err), conf), [Event.Open file])
  | .ok doc =>
    match E.jsonDecode doc with
    | (some err, f) => ((.error ("fc: decode err: " ++ err ++ " "), f.into conf), [Event.Open file])
    | (none, f) => ((.ok (), f.into conf), [Event.Open file])

/-! ## Mounting -/

/-- The block branch of `MountFCDisk`, after the read-only guard: the result
carries the device path, which the branch rewrites. -/
def mountBlock (E : Env σ) (fm : FCMounter) (devicePath : String) (s : σ) :
    Except String String × σ × List Event :=
  match E.MkdirAll s (Dir fm.TargetPath) with
  | (.error err, s1) => (.error err, s1, [Event.MkdirAll (Dir fm.TargetPath)])
  | (.ok _, s1) =>
    match E.Create s1 ("/host/" ++ fm.TargetPath) with
    | (.error err, s2) =>
      (.error ("failed to create target file for raw block bind mount: " ++ err), s2,
        [Event.MkdirAll (Dir fm.TargetPath), Event.Create ("/host/" ++ fm.TargetPath)])
    | (.ok _, s2) =>
      match E.Mount s2 (ReplaceFirst devicePath "/host" "") fm.TargetPath "" ["bind", "rw"] with
      | (.error err, s3) =>
        (.error err, s3,
          [Event.MkdirAll (Dir fm.TargetPath), Event.Create ("/host/" ++ fm.TargetPath),
           Event.Mount (ReplaceFirst devicePath "/host" "") fm.TargetPath "" ["bind", "rw"]])
      | (.ok _, s3) =>
        (.ok (ReplaceFirst devicePath "/host" ""), s3,
          [Event.MkdirAll (Dir fm.TargetPath), Event.Create ("/host/" ++ fm.TargetPath),
           Event.Mount (ReplaceFirst devicePath "/host" "") fm.TargetPath "" ["bind", "rw"]])

/-- The mount options of the filesystem branch of `MountFCDisk`. -/
def fsOptions (fm : FCMounter) : List String :=
  (if fm.ReadOnly then ["ro"] else ["rw"]) ++ fm.MountOptions

/-- The filesystem branch of `MountFCDisk`. -/
def mountFs (E : Env σ) (fm : FCMounter) (devicePath : String) (s : σ) :
    Except String String × σ × List Event :=
  match E.MkdirAll s fm.TargetPath with
  | (.error err, s1) => (.error err, s1, [Event.MkdirAll fm.TargetPath])
  | (.ok _, s1) =>
    match E.FormatAndMount s1 devicePath fm.TargetPath fm.FsType (fsOptions fm) with
    | (.error err, s2) =>
      (.error ("fc: failed to mount fc volume " ++ devicePath ++ " [" ++ fm.FsType ++ "] to "
          ++ fm.TargetPath ++ ", error " ++ err), s2,
        [Event.MkdirAll fm.TargetPath,
         Event.FormatAndMount devicePath fm.TargetPath fm.FsType (fsOptions fm)])
    | (.ok _, s2) =>
      (.ok devicePath, s2,
        [Event.MkdirAll fm.TargetPath,
         Event.FormatAndMount devicePath fm.TargetPath fm.FsType (fsOptions fm)])

/-- The two mount branches of `MountFCDisk`, from the test of the block flag on. -/
def mountBranches (E : Env σ) (fm : FCMounter) (devicePath : String) (s : σ) :
    Except String String × σ × List Event :=
  if fm.fcDisk.isBlock then
    if fm.ReadOnly then
      (.error (statusError "Internal" "Read only is not supported for Block Volume"), s, [])
    else mountBlock E fm devicePath s
  else mountFs E fm devicePath s

/-- The mount step of `MountFCDisk`: everything before the record is written.
On success it gives the device path as the rest of the function sees it.  The
flag `notMnt` of the mount-point test only decides whether "already mounted"
is printed. -/
def mountStep (E : Env σ) (fm : FCMounter) (devicePath : String) (s : σ) :
    Except String String × σ × List Event :=
  match (E.IsLikelyNotMountPoint s fm.TargetPath).2 with
  | some err =>
    if err.notExist then
      let r := mountBranches E fm devicePath s
      (r.1, r.2.1, Event.IsLikelyNotMountPoint fm.TargetPath :: r.2.2)
    else
      (.error ("Heuristic determination of mount point failed: " ++ err.msg), s,
        [Event.IsLikelyNotMountPoint fm.TargetPath])
  | none =>
    let r := mountBranches E fm devicePath s
    (r.1, r.2.1, Event.IsLikelyNotMountPoint fm.TargetPath :: r.2.2)

/-- Source `MountFCDisk`. -/
def MountFCDisk (E : Env σ) (fm : FCMounter) (devicePath : String) (s : σ) :
    Except String Unit × σ × List Event :=
  match mountStep E fm devicePath s with
  | (.error err, s1, tr) => (.error err, s1, tr)
  | (.ok devicePath, s1, tr) =>
    if HasPrefix devicePath "/dev/dm-" then
      let r := createFcConfigFile E
        { MpathDevice := devicePath, IsBlock := fm.fcDisk.isBlock,
          VolName := fm.fcDisk.connector.VolumeName } fm.StagePath s1
      (r.1, r.2.1, tr ++ r.2.2)
    else (.ok (), s1, tr)

/-! ## Publish -/

/-- The target list of `getFCDiskDetails`: the non-empty port names of the
array, colons removed, in the order of the nodes and of their ports. -/
def targetListOf (fcNodes : List FCNode) : List String :=
  (fcNodes.map fun n =>
    (n.Ports.filter fun p => p.WWPn ≠ "").map fun p => ReplaceAll p.WWPn ":" "").flatten

/-- Source `getFCDiskDetails`. -/
def getFCDiskDetails (E : Env σ) (req : NodePublishVolumeRequest) (s : σ) :
    Except String fcDevice × List Event :=
  let volName := (Split req.VolumeId "$$").headD ""
  let lun := mapGet req.PublishContext "lun"
  let wwidList := Split (mapGet req.VolumeContext "WWIDs") ","
  match E.GetFCPorts s with
  | .error _ => (.error "Error getting fiber channel details", [Event.GetFCPorts])
  | .ok fcNodes =>
    if lun = "" ∨ ((targetListOf fcNodes).length = 0 ∧ wwidList.length = 0) then
      (.error "FC target information is missing", [Event.GetFCPorts])
    else
      (.ok { connector :=
              { VolumeName := volName, TargetWWNs := targetListOf fcNodes,
                WWIDs := wwidList, Lun := lun }
             disk := "", isBlock := false },
        [Event.GetFCPorts])

/-- Source `getFCDiskMounter`.  The read-only flag is the constant `false`. -/
def getFCDiskMounter (req : NodePublishVolumeRequest) (fcDetails : fcDevice) : FCMounter :=
  { fcDisk := fcDetails
    ReadOnly := false
    FsType := mapGet req.VolumeContext "fstype"
    MountOptions := (req.VolumeCapability.getD AccessType.unset).GetMountFlags
    TargetPath := req.TargetPath
    StagePath := req.StagingTargetPath }

/-- Source `NodePublishVolume`. -/
def NodePublishVolume (E : Env σ) (req : NodePublishVolumeRequest) (s : σ) :
    Except String Unit × σ × List Event :=
  match getFCDiskDetails E req s with
  | (.error err, tr) => (.error (statusError "Internal" err), s, tr)
  | (.ok fcDetails, tr) =>
    match req.VolumeCapability with
    | none => (.error (statusError "InvalidArgument" "Volume capability not provided"), s, tr)
    | some access =>
      let fcDetails : fcDevice :=
        if access = AccessType.Block then { fcDetails with isBlock := true } else fcDetails
      match AttachFCDisk E E.osio fcDetails.connector s with
      | (.error err, s1, tr1) => (.error (statusError "Internal" err), s1, tr ++ tr1)
      | (.ok devicePath, s1, tr1) =>
        match MountFCDisk E (getFCDiskMounter req fcDetails) devicePath s1 with
        | (.error err, s2, tr2) => (.error (statusError "Internal" err), s2, tr ++ tr1 ++ tr2)
        | (.ok _, s2, tr2) => (.ok (), s2, tr ++ tr1 ++ tr2)

/-! ## Unpublish -/

/-- The part of `DetachFCDisk` from the unmount on. -/
def unmountAndRemove (E : Env σ) (targetPath : String) (s : σ) :
    Except String Unit × σ × List Event :=
  match E.Unmount s targetPath with
  | (.error err, s1) =>
    if Contains err "not mounted" then
      -- the error of this removal is only logged
      (.ok (), (E.RemoveAll s1 (Dir ("/host" ++ targetPath))).2,
        [Event.Unmount targetPath, Event.RemoveAll (Dir ("/host" ++ targetPath))])
    else (.error err, s1, [Event.Unmount targetPath])
  | (.ok _, s1) =>
    match E.RemoveAll s1 (Dir ("/host" ++ targetPath)) with
    | (.error err, s2) =>
      (.error err, s2, [Event.Unmount targetPath, Event.RemoveAll (Dir ("/host" ++ targetPath))])
    | (.ok _, s2) =>
      (.ok (), s2, [Event.Unmount targetPath, Event.RemoveAll (Dir ("/host" ++ targetPath))])

/-- Source `DetachFCDisk`.  The error of the second `pathExists` is dropped by
the source, which tests the error of the first call again. -/
def DetachFCDisk (E : Env σ) (targetPath : String) (s : σ) :
    Except String Unit × σ × List Event :=
  match E.pathExists s targetPath with
  | (_, some pathErr) =>
    (.error ("Error checking if path exists: " ++ pathErr), s, [Event.pathExists targetPath])
  | (true, none) =>
    let r := unmountAndRemove E targetPath s
    (r.1, r.2.1, Event.pathExists targetPath :: r.2.2)
  | (false, none) =>
    if (E.pathExists s (Join ["/host", targetPath])).1 then
      let r := unmountAndRemove E targetPath s
      (r.1, r.2.1,
        Event.pathExists targetPath :: Event.pathExists (Join ["/host", targetPath]) :: r.2.2)
    else
      (.ok (), s, [Event.pathExists targetPath, Event.pathExists (Join ["/host", targetPath])])

/-! ## Unstage -/

/-- The detach loop of `NodeUnstageVolume`: every device is detached, and the
error kept is that of the last device whose detach failed. -/
def detachLoop (E : Env σ) : σ → List String → Option String → Option String × σ × List Event
  | s, [], lastErr => (lastErr, s, [])
  | s, device :: rest, lastErr =>
    match E.detachDisk s device with
    | (.error err, s1) =>
      let r := detachLoop E s1 rest
        (some ("fc: detach disk failed. device: " ++ device ++ " err: " ++ err))
      (r.1, r.2.1, Event.detachDisk device :: r.2.2)
    | (.ok _, s1) =>
      let r := detachLoop E s1 rest lastErr
      (r.1, r.2.1, Event.detachDisk device :: r.2.2)

/-- The end of `NodeUnstageVolume`: removing the host-prefixed staging path. -/
def removeStaging (E : Env σ) (stagePath : String) (s : σ) :
    Except String Unit × σ × List Event :=
  match E.RemoveAll s ("/host" ++ stagePath) with
  | (.error err, s1) => (.error err, s1, [Event.RemoveAll ("/host" ++ stagePath)])
  | (.ok _, s1) => (.ok (), s1, [Event.RemoveAll ("/host" ++ stagePath)])

/-- The part of `NodeUnstageVolume` from "remove multipath" on, for the
multipath device name read from the record (empty when none was read). -/
def unstageDetach (E : Env σ) (mpathDevice stagePath : String) (s : σ) :
    Except String Unit × σ × List Event :=
  let dstPath :=
    if HasPrefix mpathDevice "/host" then ReplaceFirst mpathDevice "/host" "" else mpathDevice
  let multiPath := HasPrefix dstPath "/dev/dm-"
  let devices := if multiPath then E.findSlaveDevicesOnMultipath s dstPath else [dstPath]
  let pre := if multiPath then [Event.findSlaveDevicesOnMultipath dstPath] else []
  match detachLoop E s devices none with
  | (some lastErr, s1, tr) => (.error lastErr, s1, pre ++ tr)
  | (none, s1, tr) =>
    if multiPath then
      match E.ExecuteWithTimeout s1 4000 "multipath" ["-f", dstPath] with
      | (.error err, s2) =>
        match E.Stat s2 ("/host" ++ dstPath) with
        | some e =>
          if e.notExist then
            let r := removeStaging E stagePath s2
            (r.1, r.2.1, pre ++ tr ++ [Event.ExecuteWithTimeout 4000 "multipath" ["-f", dstPath],
              Event.Stat ("/host" ++ dstPath)] ++ r.2.2)
          else
            (.error err, s2, pre ++ tr ++ [Event.ExecuteWithTimeout 4000 "multipath" ["-f", dstPath],
              Event.Stat ("/host" ++ dstPath)])
        | none =>
          (.error err, s2, pre ++ tr ++ [Event.ExecuteWithTimeout 4000 "multipath" ["-f", dstPath],
            Event.Stat ("/host" ++ dstPath)])
      | (.ok _, s2) =>
        let r := removeStaging E stagePath s2
        (r.1, r.2.1, pre ++ tr ++ [Event.ExecuteWithTimeout 4000 "multipath" ["-f", dstPath]]
          ++ r.2.2)
    else
      let r := removeStaging E stagePath s1
      (r.1, r.2.1, pre ++ tr ++ r.2.2)

/-- Source `NodeUnstageVolume`. -/
def NodeUnstageVolume (E : Env σ) (req : NodeUnstageVolumeRequest) (s : σ) :
    Except String Unit × σ × List Event :=
  let stagePath := req.StagingTargetPath
  let volName := (Split req.VolumeId "$$").headD ""
  let loaded := loadFcDiskInfoFromFile E { MpathDevice := "", IsBlock := false, VolName := volName }
    stagePath s
  match loaded.1.1 with
  | .ok _ =>
    let r := unstageDetach E loaded.1.2.MpathDevice stagePath s
    (r.1, r.2.1, loaded.2 ++ r.2.2)
  | .error _ =>
    let confFile := Join ["/host", stagePath, volName ++ ".json"]
    match E.pathExists s confFile with
    | (false, none) =>
      match E.RemoveAll s stagePath with
      | (.error err, s1) =>
        (.error err, s1, loaded.2 ++ [Event.pathExists confFile, Event.RemoveAll stagePath])
      | (.ok _, s1) =>
        (.ok (), s1, loaded.2 ++ [Event.pathExists confFile, Event.RemoveAll stagePath])
    | _ =>
      let r := unstageDetach E "" stagePath s
      (r.1, r.2.1, loaded.2 ++ Event.pathExists confFile :: r.2.2)

end Lifecycle

/-! ## A host model

A concrete environment: a file system whose objects are named by canonical
paths, a mount table, the fixture directories of device discovery and a JSON
codec for `diskInfo` records.  It is the environment of the worked examples
and of the statements that need the semantics of the operating system. -/

/-- The JSON string literal of a text: quotes and backslashes escaped. -/
def jsonQuoteL : List Char → List Char
  | [] => ['"']
  | c :: cs =>
    if c = '"' ∨ c = '\\' then '\\' :: c :: jsonQuoteL cs
    else c :: jsonQuoteL cs

/-- Reading a JSON string literal after its opening quote: the text and the
rest of the input after the closing quote. -/
def jsonUnquoteL : List Char → Option (List Char × List Char)
  | [] => none
  | [c] => if c = '"' then some ([], []) else none
  | c :: d :: rest =>
    if c = '"' then some ([], d :: rest)
    else if c = '\\' then
      (jsonUnquoteL rest).map fun r => (d :: r.1, r.2)
    else (jsonUnquoteL (d :: rest)).map fun r => (c :: r.1, r.2)

/-- The input without a leading literal, when it starts with it. -/
def stripLit (lit inp : List Char) : Option (List Char) :=
  if lit.isPrefixOf inp then some (inp.drop lit.length) else none

/-- The document the encoder of the host model writes for a record, in the
layout of `encoding/json`: the three exported fields in declaration order and
a final newline. -/
def hostJsonEncode (d : diskInfo) : String :=
  ⟨"\x7b\"MpathDevice\":\"".data ++ jsonQuoteL d.MpathDevice.data
    ++ ",\"IsBlock\":".data ++ (if d.IsBlock then "true" else "false").data
    ++ ",\"VolName\":\"".data ++ jsonQuoteL d.VolName.data ++ "\x7d\n".data⟩

/-- Reading `true` or `false`. -/
def readBool (inp : List Char) : Option (Bool × List Char) :=
  match stripLit "true".data inp with
  | some rest => some (true, rest)
  | none => (stripLit "false".data inp).map fun rest => (false, rest)

/-- The decoder of the host model: it reads documents of the layout the encoder
writes and rejects everything else. -/
def hostJsonDecode (doc : String) : Option String × diskInfoFields :=
  let parsed : Option diskInfoFields := do
    let r1 ← stripLit "\x7b\"MpathDevice\":\"".data doc.data
    let (mpath, r2) ← jsonUnquoteL r1
    let r3 ← stripLit ",\"IsBlock\":".data r2
    let (blk, r4) ← readBool r3
    let r5 ← stripLit ",\"VolName\":\"".data r4
    let (vol, r6) ← jsonUnquoteL r5
    let _ ← stripLit "\x7d".data r6
    pure { MpathDevice := some ⟨mpath⟩, IsBlock := some blk, VolName := some ⟨vol⟩ }
  match parsed with
  | some f => (none, f)
  | none => (some "invalid character", { MpathDevice := none, IsBlock := none, VolName := none })

/-- The state of the host model. -/
structure Host where
  /-- The object a path names: symbolic links, the host prefix and bind mounts
  of the deployment resolved. -/
  resolve : String → String
  /-- The objects that exist. -/
  nodes : List String
  /-- The mount table; an object mounted twice is listed twice. -/
  mounted : List String
  /-- Objects that cannot be removed. -/
  sticky : List String
  /-- The content of the regular files. -/
  files : List (String × String)
  /-- The directory listings device discovery reads. -/
  dirs : List (String × List String)
  /-- The symbolic links device discovery resolves. -/
  links : List (String × String)
  /-- Listings and links that appear with the next SCSI rescan. -/
  hotplug : List (String × List String) × List (String × String)
  /-- The FC nodes of the array. -/
  ports : List FCNode
  /-- The slave devices of the multipath devices. -/
  slaves : List (String × List String)
  /-- The devices whose detach fails. -/
  stuck : List String
  /-- The content of the files `/sys/class/fc_host/host*/port_name`, one after
  the other. -/
  portNames : String
  /-- The initiator ports registered on the array, by host id. -/
  registered : List (Int × String)
  /-- The initiator ports the array refuses to register. -/
  refused : List String
  /-- The initiator ports the array does not return when they are fetched. -/
  unlisted : List String

/-- Whether object `o` is `p` or lies below it. -/
def inside (p o : String) : Bool := o = p || HasPrefix o (p ++ "/")

/-- Whether an object of the host cannot be removed now: it is sticky, or a
mounted or sticky object lies in it. -/
def Host.busy (h : Host) (o : String) : Bool :=
  h.sticky.any (inside o) || h.mounted.any (inside o)

/-- The handler `OSioHandler` on the host model. -/
def hostIo : ioHandler Host where
  ReadDir h d :=
    match h.dirs.lookup d with
    | some names => .ok names
    | none => .error ("open " ++ d ++ ": no such file or directory")
  Lstat h n :=
    if h.nodes.contains (h.resolve n) then .ok ()
    else .error ("lstat " ++ n ++ ": no such file or directory")
  EvalSymlinks h p :=
    match h.links.lookup p with
    | some q => .ok q
    | none =>
      if h.nodes.contains (h.resolve p) then .ok p
      else .error ("lstat " ++ p ++ ": no such file or directory")
  WriteFile h _ _ :=
    (.ok (), { h with dirs := h.hotplug.1 ++ h.dirs, links := h.hotplug.2 ++ h.links,
                      hotplug := ([], []) })

/-- The host model as an environment.

* `pathExists`, `Stat`, `Lstat` and the mount-point test look the object of
  the path up among the existing objects; `pathExists` never fails.
* `Unmount` pops one mount of the object; for an object that is not mounted it
  fails with "not mounted" when the object exists and with "no mount point
  specified" when it does not, and leaves the state as it is.
* `RemoveAll` removes every object in the path that is not busy and fails when
  something in the path is left; it does not touch the mount table.
* `Mount` and `FormatAndMount` need an existing target and push one mount.
* `Create` and `Write` store the document under the object of the path, and
  `Open` gives the document stored last.
* `detachDisk` fails for the stuck devices; the multipath flush succeeds.
* `Output` gives the port names of the host; `AddPortForHost` records the port
  for the host unless the array refuses it, and `GetHostPort` finds the
  recorded ports that are not unlisted. -/
def hostEnv : Env Host where
  osio := hostIo
  osEvalSymlinks := hostIo.EvalSymlinks
  GetFCPorts h := .ok h.ports
  IsLikelyNotMountPoint h p :=
    if h.nodes.contains (h.resolve p) then (!h.mounted.contains (h.resolve p), none)
    else (true, some ⟨"stat " ++ p ++ ": no such file or directory", true⟩)
  Mount h _ target _ _ :=
    if h.nodes.contains (h.resolve target) then
      (.ok (), { h with mounted := h.resolve target :: h.mounted })
    else (.error ("mount: " ++ target ++ ": mount point does not exist."), h)
  FormatAndMount h _ target _ _ :=
    if h.nodes.contains (h.resolve target) then
      (.ok (), { h with mounted := h.resolve target :: h.mounted })
    else (.error ("mount: " ++ target ++ ": mount point does not exist."), h)
  Unmount h target :=
    if h.mounted.contains (h.resolve target) then
      (.ok (), { h with mounted := h.mounted.erase (h.resolve target) })
    else if h.nodes.contains (h.resolve target) then
      (.error ("umount: " ++ target ++ ": not mounted."), h)
    else (.error ("umount: " ++ target ++ ": no mount point specified."), h)
  MkdirAll h p := (.ok (), { h with nodes := h.resolve p :: h.nodes })
  Create h f :=
    (.ok (), { h with nodes := h.resolve f :: h.nodes,
                      files := (h.resolve f, "") :: h.files })
  Write h f doc := (.ok (), { h with files := (h.resolve f, doc) :: h.files })
  Open h f :=
    match h.files.lookup (h.resolve f) with
    | some doc => .ok doc
    | none => .error "no such file or directory"
  RemoveAll h p :=
    let gone (o : String) : Bool := inside (h.resolve p) o && !h.busy o
    let h1 : Host :=
      { h with nodes := h.nodes.filter fun o => !gone o,
               files := h.files.filter fun f => !gone f.1 }
    if h1.nodes.any (inside (h.resolve p)) then
      (.error ("unlinkat " ++ p ++ ": device or resource busy"), h1)
    else (.ok (), h1)
  Stat h p :=
    if h.nodes.contains (h.resolve p) then none
    else some ⟨"stat " ++ p ++ ": no such file or directory", true⟩
  jsonEncode d := .ok (hostJsonEncode d)
  jsonDecode := hostJsonDecode
  pathExists h p := (h.nodes.contains (h.resolve p), none)
  detachDisk h device :=
    if h.stuck.contains device then (.error "device or resource busy", h) else (.ok (), h)
  findSlaveDevicesOnMultipath h dm := (h.slaves.lookup dm).getD []
  ExecuteWithTimeout h _ _ _ := (.ok "", h)
  Output h _ _ := .ok h.portNames
  AddPortForHost h hostID _ portName :=
    if h.refused.contains portName then (.error "PORT_REJECTED", h)
    else (.ok (), { h with registered := (hostID, portName) :: h.registered })
  GetHostPort h hostID portName :=
    if h.unlisted.contains portName then .error "PORT_NOT_FOUND"
    else if h.registered.contains (hostID, portName) then .ok ()
    else .error "PORT_NOT_FOUND"

/-! ## Example hosts -/

/-- The identity layout with the host prefix: `/host/x` and `x` name the same
object. -/
def stripHost (p : String) : String :=
  if HasPrefix (Clean p) "/host/" then ReplaceFirst (Clean p) "/host" "" else Clean p

/-- A host on which nothing exists yet. -/
def emptyHost : Host where
  resolve := stripHost
  nodes := []
  mounted := []
  sticky := []
  files := []
  dirs := []
  links := []
  hotplug := ([], [])
  ports := []
  slaves := []
  stuck := []
  portNames := ""
  registered := []
  refused := []
  unlisted := []

/-- A host with two FC paths: the path to port `500507681023aaaa` shows the raw
disk `sdc` without a multipath parent, the path to port `5005076810234567` shows
`sdb`, a slave of the multipath device `dm-3`. -/
def hostA : Host :=
  { emptyHost with
    nodes := ["/dev/sdb", "/dev/sdc", "/dev/dm-3", "/sys/block/dm-3/slaves/sdb"]
    dirs := [("/host/dev/disk/by-path/",
               ["pci-0000:3b:00.0-fc-0x500507681023aaaa-lun-2",
                "pci-0000:3b:00.0-fc-0x5005076810234567-lun-2"]),
             ("/sys/block/", ["sdb", "sdc", "dm-3"]),
             ("/sys/class/scsi_host/", ["host0"])]
    links := [("/host/dev/disk/by-path/pci-0000:3b:00.0-fc-0x500507681023aaaa-lun-2",
                "/host/dev/sdc"),
              ("/host/dev/disk/by-path/pci-0000:3b:00.0-fc-0x5005076810234567-lun-2",
                "/host/dev/sdb")]
    ports := [⟨[⟨"50:05:07:68:10:23:aa:aa"⟩, ⟨"50:05:07:68:10:23:45:67"⟩]⟩]
    slaves := [("/dev/dm-3", ["sdb"])] }

/-- The host `hostA` before its disks are visible: they appear with a rescan. -/
def hostColdA : Host :=
  { hostA with
    dirs := [("/host/dev/disk/by-path/", []), ("/sys/block/", []),
             ("/sys/class/scsi_host/", ["host0"])]
    links := []
    hotplug := (hostA.dirs, hostA.links) }

/-- The connector for both ports of `hostA`, LUN 2. -/
def connA : Connector where
  VolumeName := "vol1"
  TargetWWNs := ["500507681023aaaa", "5005076810234567"]
  Lun := "2"
  WWIDs := [""]

/-- A publish request for `vol1` without WWIDs, for LUN 1, mount access. -/
def reqNoIds : NodePublishVolumeRequest where
  VolumeId := "vol1$$fc"
  PublishContext := [("lun", "1")]
  VolumeContext := [("fstype", "ext4")]
  VolumeCapability := some (AccessType.Mount [])
  TargetPath := "/var/lib/kubelet/pods/p1/volumes/vol1/mount"
  StagingTargetPath := "/var/lib/kubelet/plugins/fc/vol1"
  Readonly := false

/-- A publish request for `vol1`, LUN 2, mount access. -/
def reqA : NodePublishVolumeRequest where
  VolumeId := "vol1$$fc"
  PublishContext := [("lun", "2")]
  VolumeContext := [("fstype", "ext4")]
  VolumeCapability := some (AccessType.Mount [])
  TargetPath := "/var/lib/kubelet/pods/p1/volumes/vol1/mount"
  StagingTargetPath := "/var/lib/kubelet/plugins/fc/vol1"
  Readonly := false

/-- A publish request for `vol1`, LUN 2, block access, read-only requested. -/
def reqBlockRO : NodePublishVolumeRequest :=
  { reqA with
    VolumeCapability := some AccessType.Block
    TargetPath := "/var/lib/kubelet/pods/p1/volumeDevices/vol1"
    Readonly := true }

/-- The host `hostA` with the target path of `reqA` present and mounted. -/
def hostMountedA : Host :=
  { hostA with
    nodes := "/var/lib/kubelet/pods/p1/volumes/vol1/mount" :: hostA.nodes
    mounted := ["/var/lib/kubelet/pods/p1/volumes/vol1/mount"] }

/-- The entry events of `createFcConfigFile`. -/
def Event.isConfigEntry : Event → Bool
  | .createFcConfigFile _ _ _ _ => true
  | _ => false

/-- The mount spec of the block request `reqBlockRO` for the connector `connA`. -/
def fmBlockA : FCMounter :=
  getFCDiskMounter reqBlockRO { connector := connA, disk := "", isBlock := true }

/-- The mount spec of the filesystem request `reqA` for the connector `connA`. -/
def fmA : FCMounter :=
  getFCDiskMounter reqA { connector := connA, disk := "", isBlock := false }

/-- The messages of the detaches that fail when the devices are detached in
order, each in the state its predecessors leave. -/
def detachFailures {σ : Type} (E : Env σ) : σ → List String → List String
  | _, [] => []
  | s, device :: rest =>
    match E.detachDisk s device with
    | (.error err, s1) =>
      ("fc: detach disk failed. device: " ++ device ++ " err: " ++ err) ::
        detachFailures E s1 rest
    | (.ok _, s1) => detachFailures E s1 rest

/-- A staged host: the record of scenario A is in the staging directory, and
the multipath device `/dev/dm-3` has the slaves `sdb` and `sdd`, of which `sdd`
cannot be detached. -/
def hostStagedA : Host :=
  { hostA with
    nodes := "/var/lib/kubelet/plugins/fc/vol1" ::
      "/var/lib/kubelet/plugins/fc/vol1/vol1.json" :: hostA.nodes
    files := [("/var/lib/kubelet/plugins/fc/vol1/vol1.json",
                hostJsonEncode ⟨"/dev/dm-3", false, "vol1"⟩)]
    slaves := [("/dev/dm-3", ["sdd", "sdb"])]
    stuck := ["sdd"] }

/-- The unstage request for `vol1`. -/
def unstageA : NodeUnstageVolumeRequest where
  VolumeId := "vol1$$fc"
  StagingTargetPath := "/var/lib/kubelet/plugins/fc/vol1"

/-- The staged host `hostStagedA` with an unreadable record: the file exists
and does not hold JSON. -/
def hostGarbledA : Host :=
  { hostStagedA with
    files := [("/var/lib/kubelet/plugins/fc/vol1/vol1.json", "not json")] }

/-- A connector for the port `500507681023aaaa` of `hostA`, which shows the raw
disk `sdc`, and for a port `5005076810239999` the host has no path to. -/
def connLost : Connector where
  VolumeName := "vol1"
  TargetWWNs := ["500507681023aaaa", "5005076810239999"]
  Lun := "2"
  WWIDs := [""]

/-- The host `hostA` with a by-id directory: the identifier
`36742b0f0000004e20000000000000a01` names the disk `sdb`, a slave of `dm-3`. -/
def hostWwidA : Host :=
  { hostA with
    dirs := ("/dev/disk/by-id/", ["scsi-36742b0f0000004e20000000000000a01"]) :: hostA.dirs
    links := ("/dev/disk/by-id/scsi-36742b0f0000004e20000000000000a01", "/dev/sdb") ::
      hostA.links }

/-- A host whose only FC path to port `5005076810234567` is for LUN 10. -/
def hostLun10 : Host :=
  { emptyHost with
    nodes := ["/dev/sdk"]
    dirs := [("/host/dev/disk/by-path/", ["pci-0000:3b:00.0-fc-0x5005076810234567-lun-10"]),
             ("/sys/block/", ["sdk"])]
    links := [("/host/dev/disk/by-path/pci-0000:3b:00.0-fc-0x5005076810234567-lun-10",
                "/host/dev/sdk")] }

/-! ## Stage: port registration -/

/-- Go `strings.TrimSuffix`. -/
def TrimSuffix (s suffix : String) : String :=
  if suffix.data.reverse.isPrefixOf s.data.reverse then
    ⟨s.data.take (s.data.length - suffix.data.length)⟩
  else s

/-- The value of a run of decimal digits, `none` when a character is not a digit. -/
def parseDigits : List Char → Nat → Option Nat
  | [], acc => some acc
  | ch :: rest, acc =>
    if 48 ≤ ch.toNat ∧ ch.toNat ≤ 57 then parseDigits rest (acc * 10 + (ch.toNat - 48))
    else none

/-- The number Go `strconv.Atoi` returns, its error dropped as the source drops
it: zero for a text that is not a decimal integer with an optional sign, and
the nearest 64-bit bound for a value out of range. -/
def Atoi (s : String) : Int :=
  match s.data with
  | [] => 0
  | '-' :: ds =>
    if ds = [] then 0
    else match parseDigits ds 0 with
      | some n => if n > 2 ^ 63 then -(2 ^ 63 : Int) else -(n : Int)
      | none => 0
  | '+' :: ds =>
    if ds = [] then 0
    else match parseDigits ds 0 with
      | some n => if n ≥ 2 ^ 63 then (2 ^ 63 - 1 : Int) else (n : Int)
      | none => 0
  | ds =>
    match parseDigits ds 0 with
    | some n => if n ≥ 2 ^ 63 then (2 ^ 63 - 1 : Int) else (n : Int)
    | none => 0

/-- The fields of `csi.NodeStageVolumeRequest` the node service reads. -/
structure NodeStageVolumeRequest where
  /-- The volume id. -/
  VolumeId : String
  /-- The publish context. -/
  PublishContext : List (String × String)
  deriving DecidableEq, Repr

section Stage

variable {σ : Type}

/-- Source `getPortName`: the port names of the FC hosts of the node, their
first "0x" removed; no port when the command fails or prints nothing. -/
def getPortName (E : Env σ) (s : σ) : List String × List Event :=
  (match E.Output s "bash" ["-c", "cat /sys/class/fc_host/host*/port_name"] with
    | .error _ => []
    | .ok portName =>
      if portName ≠ "" then
        (Split (TrimSuffix portName "\n") "\n").map fun port => ReplaceFirst port "0x" ""
      else [],
   [Event.Output "bash" ["-c", "cat /sys/class/fc_host/host*/port_name"]])

/-- The loop of `NodeStageVolume` over the local ports: a port that does not
occur in the text `ports` is added to the host and fetched back; the first
failure ends the call. -/
def stageLoop (E : Env σ) (hstID : Int) (ports : String) :
    σ → List String → Except String Unit × σ × List Event
  | s, [] => (.ok (), s, [])
  | s, fcp :: rest =>
    if !Contains ports fcp then
      match E.AddPortForHost s hstID "FC" fcp with
      | (.error err, s1) =>
        (.error (statusError "Internal" err), s1, [Event.AddPortForHost hstID "FC" fcp])
      | (.ok _, s1) =>
        match E.GetHostPort s1 hstID fcp with
        | .error err =>
          (.error (statusError "Internal" err), s1,
            [Event.AddPortForHost hstID "FC" fcp, Event.GetHostPort hstID fcp])
        | .ok _ =>
          let r := stageLoop E hstID ports s1 rest
          (r.1, r.2.1,
            Event.AddPortForHost hstID "FC" fcp :: Event.GetHostPort hstID fcp :: r.2.2)
    else stageLoop E hstID ports s rest

/-- Source `NodeStageVolume`. -/
def NodeStageVolume (E : Env σ) (req : NodeStageVolumeRequest) (s : σ) :
    Except String Unit × σ × List Event :=
  if Atoi (mapGet req.PublishContext "hostID") < 1 then
    (.error (statusError "Internal" "not a valid host"), s, [])
  else
    let fcPorts := getPortName E s
    if fcPorts.1.length = 0 then
      (.error (statusError "Internal" "Port name not found"), s, fcPorts.2)
    else
      let r := stageLoop E (Atoi (mapGet req.PublishContext "hostID"))
        (mapGet req.PublishContext "hostPorts") s fcPorts.1
      (r.1, r.2.1, fcPorts.2 ++ r.2.2)

end Stage

/-- The events a stage call causes for one local port that is missing on the
array: the registration and the verification. -/
def registrationOf (hstID : Int) (fcp : String) : List Event :=
  [Event.AddPortForHost hstID "FC" fcp, Event.GetHostPort hstID fcp]

/-- The local ports that do not occur in the text `ports`, in order. -/
def missingPorts (ports : String) (fcPorts : List String) : List String :=
  fcPorts.filter fun fcp => !Contains ports fcp

/-- The registered port list a publish context carries in "hostPorts": the
elements of the comma-separated text. -/
def registeredPorts (ports : String) : List String := Split ports ","

/-- The state in which the given ports have all been registered and verified,
one after the other from state `s`; `none` when a registration or a
verification among them fails. -/
def afterRegistering {σ : Type} (E : Env σ) (hstID : Int) : σ → List String → Option σ
  | s, [] => some s
  | s, fcp :: rest =>
    match E.AddPortForHost s hstID "FC" fcp with
    | (.ok _, s1) =>
      match E.GetHostPort s1 hstID fcp with
      | .ok _ => afterRegistering E hstID s1 rest
      | .error _ => none
    | (.error _, _) => none

/-- A node with the FC ports `5005076810234567` and `500507681023aaaa`. -/
def hostNodeA : Host :=
  { emptyHost with portNames := "0x5005076810234567\n0x500507681023aaaa\n" }

/-- A stage request for host 7, which has the port `500507681023aaaa`. -/
def stageA : NodeStageVolumeRequest where
  VolumeId := "vol1$$fc"
  PublishContext := [("hostID", "7"), ("hostPorts", "500507681023aaaa")]

/-- The node `hostNodeA` in front of an array that refuses the port
`5005076810234567`. -/
def hostRefusingA : Host :=
  { hostNodeA with refused := ["5005076810234567"] }

/-- The node `hostNodeA` in front of an array that accepts every port and does
not return the port `500507681023aaaa` afterwards. -/
def hostUnlistedA : Host :=
  { hostNodeA with unlisted := ["500507681023aaaa"] }

/-- A stage request for host 7, which has no registered port. -/
def stageNone : NodeStageVolumeRequest where
  VolumeId := "vol1$$fc"
  PublishContext := [("hostID", "7"), ("hostPorts", "")]

/-- A stage request for host 7, whose only registered port is the iSCSI name
`iqn.1994-05.com.redhat:5005076810234567`. -/
def stageIqn : NodeStageVolumeRequest where
  VolumeId := "vol1$$fc"
  PublishContext :=
    [("hostID", "7"), ("hostPorts", "iqn.1994-05.com.redhat:5005076810234567")]

/-! ## The REST client: `checkResponse` -/

/-- A JSON value as `encoding/json` decodes it into an `interface{}`: `null`
is Go's `nil`, a number keeps its text, an object is the map of its members. -/
inductive Json where
  /-- The value `null`. -/
  | null
  /-- A boolean. -/
  | bool (b : Bool)
  /-- A number. -/
  | number (text : String)
  /-- A string. -/
  | string (s : String)
  /-- An array. -/
  | array (elems : List Json)
  /-- An object. -/
  | object (members : List (String × Json))

/-- Indexing the Go map of an object: `nil` for a missing key. -/
def Json.member (members : List (String × Json)) (key : String) : Json :=
  (members.lookup key).getD Json.null

/-- The Go type of a decoded value, as a failed type assertion prints it. -/
def Json.goType : Json → String
  | .null => "nil"
  | .bool _ => "bool"
  | .number _ => "float64"
  | .string _ => "string"
  | .array _ => "[]interface {}"
  | .object _ => "map[string]interface {}"

/-- The non-nil results `checkResponse` can return. -/
inductive Result where
  /-- The value `resptpye` the caller passed, filled from the "result" member
  of the body when it has one. -/
  | typed (filled : Option Json)
  /-- The "result" member of the body as a generic value. -/
  | value (j : Json)

/-- The parts of a `resty.Response` that `checkResponse` reads. -/
structure Response where
  /-- The HTTP status code. -/
  StatusCode : Nat
  /-- The HTTP status line. -/
  Status : String
  /-- The URL of the request. -/
  URL : String
  /-- What `json.Unmarshal` makes of the body: the value, or the syntax error. -/
  Body : Except String Json

/-- Source `parseError`.  A failed type assertion panics; the function recovers
and reports the panic as the error text. -/
def parseError (responseinmap : Json) : String × Bool :=
  match responseinmap with
  | .null => ("", false)
  | .object resultmap =>
    match Json.member resultmap "code" with
    | .string code =>
      match Json.member resultmap "message" with
      | .string message => (code ++ " " ++ message, true)
      | other =>
        ("recovered in parseError  " ++ "interface conversion: interface {} is " ++
          other.goType ++ ", not string", true)
    | other =>
      ("recovered in parseError  " ++ "interface conversion: interface {} is " ++
        other.goType ++ ", not string", true)
  | other =>
    ("recovered in parseError  " ++ "interface conversion: interface {} is " ++
      other.goType ++ ", not map[string]interface {}", true)

/-- What `json.Unmarshal(res.Body(), &apiresp)` leaves in the fields `Result`
and `Error` of an `apiresponse` whose `Result` holds the expected type:
`accepts` says whether a "result" member decodes into that type.  A body that
is not JSON, a body that is neither an object nor `null`, and a "result" member
of the wrong shape are errors; a `null` "result" sets `Result` to `nil`. -/
def unmarshalApiResponse (accepts : Json → Bool) (body : Except String Json) :
    Except String (Option Result × Json) :=
  match body with
  | .error err => .error err
  | .ok .null => .ok (some (Result.typed none), Json.null)
  | .ok (.object members) =>
    match members.lookup "result" with
    | none => .ok (some (Result.typed none), Json.member members "error")
    | some .null => .ok (none, Json.member members "error")
    | some j =>
      if accepts j then .ok (some (Result.typed (some j)), Json.member members "error")
      else .error ("json: cannot unmarshal " ++ j.goType ++ " into Go struct field " ++
        "apiresponse.result")
  | .ok other =>
    .error ("json: cannot unmarshal " ++ other.goType ++
      " into Go value of type client.apiresponse")

/-- Source `checkResponse`, for a non-nil response: the result and the error,
`none` for Go's `nil`.  In the branch for an expected type the source returns
`nil, er` when the body cannot be decoded, and `er` is the named result, still
`nil` there. -/
def checkResponse (res : Response) (err : Option String)
    (resptpye : Option (Json → Bool)) : Option Result × Option String :=
  if res.StatusCode = 401 then
    (none, some ("Request authentication failed for : " ++ res.URL))
  else if res.StatusCode = 503 then (none, some res.Status)
  else
    match err with
    | some e => (none, some e)
    | none =>
      match resptpye with
      | some accepts =>
        match unmarshalApiResponse accepts res.Body with
        | .error _ => (none, none)
        | .ok (result, error) =>
          if (parseError error).2 then (none, some (parseError error).1)
          else
            match result with
            | some r => (some r, none)
            | none => (none, some ("result part of response is nil for request " ++ res.URL))
      | none =>
        match res.Body with
        | .error er => (none, some er)
        | .ok (.object responseinmap) =>
          if (parseError (Json.member responseinmap "error")).2 then
            (none, some (parseError (Json.member responseinmap "error")).1)
          else
            match Json.member responseinmap "result" with
            | .null =>
              (none, some ("result part of response is nil for request " ++ res.URL))
            | result => (some (Result.value result), none)
        | .ok other =>
          -- the type assertion to a map panics; the deferred function recovers
          (none, some ("error while parsing management api response " ++
            "interface conversion: interface {} is " ++ other.goType ++
            ", not map[string]interface {}" ++ "for request " ++ res.URL))

/-- A successful response whose body is not JSON. -/
def resNotJson : Response where
  StatusCode := 200
  Status := "200 OK"
  URL := "api/rest/hosts/7/ports"
  Body := .error "invalid character '<' looking for beginning of value"

/-! ## Facts about device discovery -/

section DiscoveryFacts

variable {σ : Type}

/-- `findDeviceForPath` enters no function of the contracts. -/
theorem findDeviceForPath_entries (E : Env σ) (s : σ) (path : String) :
    (findDeviceForPath E s path).2.filter Event.isEntry = [] := rfl

/-- The loop over `/sys/block/` enters no function of the contracts. -/
theorem findMultipathLoop_entries (io : ioHandler σ) (s : σ) (disk : String)
    (dirs : List String) :
    (findMultipathLoop io s disk dirs).2.filter Event.isEntry = [] := by
  induction dirs with
  | nil => rfl
  | cons name rest ih =>
    unfold findMultipathLoop
    split
    · split
      · rfl
      · simpa [Event.isEntry] using ih
    · exact ih

/-- `findMultipathDeviceForDevice` enters no function of the contracts. -/
theorem findMultipathDeviceForDevice_entries (E : Env σ) (io : ioHandler σ) (s : σ)
    (device : String) :
    (findMultipathDeviceForDevice E io s device).2.filter Event.isEntry = [] := by
  have h := findDeviceForPath_entries E s device
  unfold findMultipathDeviceForDevice
  split
  · rename_i err tr heq
    rw [heq] at h; exact h
  · rename_i disk tr heq
    rw [heq] at h
    have h2 : tr.filter Event.isEntry = [] := h
    split
    · simp only [List.filter_append, h2, List.nil_append, List.filter_cons, Event.isEntry,
        findMultipathLoop_entries]
      rfl
    · simp only [List.filter_append, h2, List.nil_append, List.filter_cons, Event.isEntry]
      rfl

/-- The loop of `findFcDisk` enters no function of the contracts. -/
theorem findFcDiskLoop_entries (E : Env σ) (io : ioHandler σ) (s : σ) (FcPath : String)
    (dirs : List String) :
    (findFcDiskLoop E io s FcPath dirs).2.filter Event.isEntry = [] := by
  induction dirs with
  | nil => rfl
  | cons name rest ih =>
    unfold findFcDiskLoop
    split
    · split
      · rename_i disk _
        have h := findMultipathDeviceForDevice_entries E io s disk
        split
        · rename_i dm tr heq
          rw [heq] at h
          have h2 : tr.filter Event.isEntry = [] := h
          simp only [List.filter_cons, Event.isEntry, h2]
          rfl
        · rename_i err tr heq
          rw [heq] at h
          have h2 : tr.filter Event.isEntry = [] := h
          simp only [List.filter_cons, List.filter_append, Event.isEntry, h2, ih]
          rfl
      · simp only [List.filter_cons, Event.isEntry, ih]
        rfl
    · exact ih

/-- The loop of `getDisksWwids` enters no function of the contracts. -/
theorem getDisksWwidsLoop_entries (E : Env σ) (io : ioHandler σ) (s : σ) (FcPath : String)
    (dirs : List String) :
    (getDisksWwidsLoop E io s FcPath dirs).2.filter Event.isEntry = [] := by
  induction dirs with
  | nil => rfl
  | cons name rest ih =>
    unfold getDisksWwidsLoop
    split
    · split
      · rfl
      · rename_i disk _
        have h := findMultipathDeviceForDevice_entries E io s disk
        split
        · rename_i err tr heq
          rw [heq] at h
          have h2 : tr.filter Event.isEntry = [] := h
          simp only [List.filter_cons, Event.isEntry, h2]
          rfl
        · rename_i dm tr heq
          rw [heq] at h
          have h2 : tr.filter Event.isEntry = [] := h
          simp only [List.filter_cons, List.filter_append, Event.isEntry, h2, ih]
          rfl
    · exact ih

/-- A call of the locator is one function entry: its own. -/
theorem locate_entries (E : Env σ) (io : ioHandler σ) (c : Connector) (s : σ)
    (diskID : String) :
    (locate E io c s diskID).2.filter Event.isEntry = [locateEvent c diskID] := by
  unfold locate locateEvent
  split
  · unfold findFcDisk
    split
    · simp only [List.filter_cons, Event.isEntry, findFcDiskLoop_entries]
      rfl
    · rfl
  · unfold getDisksWwids
    split
    · simp only [List.filter_cons, Event.isEntry, getDisksWwidsLoop_entries]
      rfl
    · rfl

/-- The writes of the rescan enter no function of the contracts. -/
theorem scsiHostRescanLoop_entries (io : ioHandler σ) (dirs : List String) (s : σ) :
    (scsiHostRescanLoop io s dirs).2.filter Event.isEntry = [] := by
  induction dirs generalizing s with
  | nil => rfl
  | cons f rest ih =>
    unfold scsiHostRescanLoop
    simp only [List.filter_cons, Event.isEntry, ih]
    rfl

/-- A rescan is one function entry: its own. -/
theorem scsiHostRescan_entries (io : ioHandler σ) (s : σ) :
    (scsiHostRescan io s).2.filter Event.isEntry = [Event.scsiHostRescan] := by
  unfold scsiHostRescan
  split
  · simp only [List.filter_cons, Event.isEntry, scsiHostRescanLoop_entries]
    rfl
  · rfl

/-- A pass over candidates none of which has a device-mapper parent ends with
what the last candidate gave (or with the incoming values when there is no
candidate), having probed every candidate once, in order. -/
theorem probePass_no_dm (E : Env σ) (io : ioHandler σ) (c : Connector) (s : σ)
    (ids : List String) (dd : String × String)
    (h : ∀ x ∈ ids, (locate E io c s x).1.2 = "") :
    (probePass E io c s ids dd).1 = (ids.map fun x => (locate E io c s x).1).getLastD dd ∧
    (probePass E io c s ids dd).2.filter Event.isEntry = ids.map (locateEvent c) := by
  induction ids generalizing dd with
  | nil => exact ⟨rfl, rfl⟩
  | cons x rest ih =>
    have hx : (locate E io c s x).1.2 = "" := h x (List.mem_cons_self _ _)
    have hr := ih (locate E io c s x).1 (fun y hy => h y (List.mem_cons_of_mem _ hy))
    unfold probePass
    simp only [hx, ne_eq, not_true_eq_false, if_false, List.map_cons, List.filter_append,
      locate_entries, hr.2, List.singleton_append, and_true]
    rw [hr.1]
    cases rest <;> rfl

/-- A pass stops at the first candidate with a device-mapper parent and ends
with what that candidate gave. -/
theorem probePass_first_dm (E : Env σ) (io : ioHandler σ) (c : Connector) (s : σ)
    (pre : List String) (x : String) (post : List String) (dd : String × String)
    (hpre : ∀ y ∈ pre, (locate E io c s y).1.2 = "")
    (hx : (locate E io c s x).1.2 ≠ "") :
    (probePass E io c s (pre ++ x :: post) dd).1 = (locate E io c s x).1 := by
  induction pre generalizing dd with
  | nil =>
    simp only [List.nil_append]
    unfold probePass
    simp only [hx, ne_eq, not_false_eq_true, if_true]
  | cons y rest ih =>
    have hy : (locate E io c s y).1.2 = "" := hpre y (List.mem_cons_self _ _)
    simp only [List.cons_append]
    unfold probePass
    simp only [hy, ne_eq, not_true_eq_false, if_false]
    exact ih _ (fun z hz => hpre z (List.mem_cons_of_mem _ hz))

end DiscoveryFacts

/-! ## The search contracts -/

section SearchContracts

variable {σ : Type}

/-- Claim C2.  Whenever a probing pass that `searchDisk` executes meets a
candidate for which the locator gives a non-empty multipath path, `searchDisk`
succeeds with the multipath path of the first such candidate of that pass:
in the first pass (host state `s`), and, when the first pass gave no multipath
path for any candidate, in the second pass (the state the rescan leaves). -/
theorem searchDisk_prefers_multipath (E : Env σ) (io : ioHandler σ) (c : Connector) (s : σ)
    (pre : List String) (x : String) (post : List String)
    (hids : candidates c = pre ++ x :: post) :
    ((∀ y ∈ pre, (locate E io c s y).1.2 = "") → (locate E io c s x).1.2 ≠ "" →
      (searchDisk E io c s).1 = .ok (locate E io c s x).1.2) ∧
    ((∀ y ∈ candidates c, (locate E io c s y).1.2 = "") →
      (∀ y ∈ pre, (locate E io c (scsiHostRescan io s).1 y).1.2 = "") →
      (locate E io c (scsiHostRescan io s).1 x).1.2 ≠ "" →
      (searchDisk E io c s).1 = .ok (locate E io c (scsiHostRescan io s).1 x).1.2) := by
  constructor
  · intro hpre hx
    have hp := probePass_first_dm E io c s pre x post ("", "") hpre hx
    simp only [searchDisk, hids, hp, hx, ne_eq, not_false_eq_true, if_true, searchDiskResult,
      and_false, if_false]
  · intro hall hpre hx
    have hp1 := (probePass_no_dm E io c s (candidates c) ("", "") hall).1
    have hdm1 : (probePass E io c s (candidates c) ("", "")).1.2 = "" := by
      rw [hp1]
      generalize candidates c = ids at hall
      induction ids using List.reverseRecOn with
      | nil => rfl
      | append_singleton l a _ =>
        simp only [List.map_append, List.map_cons, List.map_nil]
        rw [List.getLastD_concat]
        exact hall a (by simp)
    have hp2 := probePass_first_dm E io c (scsiHostRescan io s).1 pre x post
      (probePass E io c s (candidates c) ("", "")).1 hpre hx
    unfold searchDisk
    simp only [hdm1, ne_eq, not_true_eq_false, if_false]
    rw [hids] at hp2 ⊢
    rw [hp2]
    simp only [searchDiskResult, hx, and_false, if_false, ne_eq, not_false_eq_true, if_true]

/-- Witness of claim C2.  On `hostA` the first candidate has the raw disk
`/host/dev/sdc` and no multipath parent, the second has `/dev/dm-3`: the first
pass returns `/dev/dm-3`.  On `hostColdA` the first pass finds nothing and the
second pass, after the rescan, returns `/dev/dm-3`. -/
theorem searchDisk_prefers_multipath_witness :
    ((locate hostEnv hostIo connA hostA "500507681023aaaa").1 = ("/host/dev/sdc", "") ∧
      (searchDisk hostEnv hostIo connA hostA).1 = .ok "/dev/dm-3") ∧
    ((∀ y ∈ candidates connA, (locate hostEnv hostIo connA hostColdA y).1.2 = "") ∧
      (searchDisk hostEnv hostIo connA hostColdA).1 = .ok "/dev/dm-3") :=
  ⟨⟨by decide,
    (searchDisk_prefers_multipath hostEnv hostIo connA hostA
      ["500507681023aaaa"] "5005076810234567" [] (by decide)).1 (by decide) (by decide)⟩,
   ⟨by decide,
    (searchDisk_prefers_multipath hostEnv hostIo connA hostColdA
      ["500507681023aaaa"] "5005076810234567" [] (by decide)).2
      (by decide) (by decide) (by decide)⟩⟩

/-- Claim C3.  When the locator finds neither a raw device nor a multipath
device for any candidate, before and after the rescan, `searchDisk` fails with
"no fc disk found", and the functions it enters are, in order: the locator for
every candidate, `scsiHostRescan` once, the locator for every candidate again. -/
theorem searchDisk_not_found (E : Env σ) (io : ioHandler σ) (c : Connector) (s : σ)
    (h1 : ∀ y ∈ candidates c, (locate E io c s y).1 = ("", ""))
    (h2 : ∀ y ∈ candidates c, (locate E io c (scsiHostRescan io s).1 y).1 = ("", "")) :
    (searchDisk E io c s).1 = .error "no fc disk found" ∧
    (searchDisk E io c s).2.2.filter Event.isEntry =
      Event.searchDisk :: ((candidates c).map (locateEvent c) ++
        Event.scsiHostRescan :: (candidates c).map (locateEvent c)) := by
  have last_empty : ∀ (t : σ) (ids : List String),
      (∀ y ∈ ids, (locate E io c t y).1 = ("", "")) →
      (ids.map fun y => (locate E io c t y).1).getLastD ("", "") = ("", "") := by
    intro t ids h
    induction ids using List.reverseRecOn with
    | nil => rfl
    | append_singleton l a _ =>
      simp only [List.map_append, List.map_cons, List.map_nil]
      rw [List.getLastD_concat]
      exact h a (by simp)
  have p1 := probePass_no_dm E io c s (candidates c) ("", "")
    (fun y hy => by rw [h1 y hy])
  have p2 := probePass_no_dm E io c (scsiHostRescan io s).1 (candidates c) ("", "")
    (fun y hy => by rw [h2 y hy])
  rw [last_empty s _ h1] at p1
  rw [last_empty _ _ h2] at p2
  have e1 : (probePass E io c s (candidates c) ("", "")).1.2 = "" := by rw [p1.1]
  constructor
  · simp only [searchDisk, e1, ne_eq, not_true_eq_false, if_false, p1.1, p2.1]
    rfl
  · simp only [searchDisk, e1, ne_eq, not_true_eq_false, if_false, p1.1, List.filter_cons,
      List.filter_append, p1.2, p2.2, scsiHostRescan_entries, Event.isEntry, if_true,
      List.singleton_append]

/-- Witness of claim C3: on the empty host nothing is found for either port. -/
theorem searchDisk_not_found_witness :
    (searchDisk hostEnv hostIo connA emptyHost).1 = .error "no fc disk found" ∧
    (searchDisk hostEnv hostIo connA emptyHost).2.2.filter Event.isEntry =
      [Event.searchDisk,
       Event.findFcDisk "500507681023aaaa" "2", Event.findFcDisk "5005076810234567" "2",
       Event.scsiHostRescan,
       Event.findFcDisk "500507681023aaaa" "2", Event.findFcDisk "5005076810234567" "2"] :=
  searchDisk_not_found hostEnv hostIo connA emptyHost (by decide) (by decide)

end SearchContracts

/-! ## Publish: validation and the read-only guard -/

/-- `strings.Split` never gives the empty list, so the test
`len(wwidList) == 0` of `getFCDiskDetails` never holds. -/
theorem Split_length_pos (s sep : String) : (Split s sep).length ≠ 0 := by
  have h : ∀ (cs : List Char) (n : Nat) (cur : List Char),
      (splitL sep.data n cur cs).length ≠ 0 := by
    intro cs
    induction cs with
    | nil => intro n cur; cases n <;> simp [splitL]
    | cons c cs ih =>
      intro n cur
      cases n with
      | zero =>
        unfold splitL
        split
        · simp
        · exact ih _ _
      | succ k => unfold splitL; exact ih _ _
  simpa [Split] using h s.data 0 []

/-- With a non-empty LUN `getFCDiskDetails` accepts every request once the
array's ports are listed, whatever the target list and the "WWIDs" entry. -/
theorem getFCDiskDetails_ok_of_lun {σ : Type} (E : Env σ) (req : NodePublishVolumeRequest)
    (s : σ) (fcNodes : List FCNode) (hp : E.GetFCPorts s = .ok fcNodes)
    (hlun : mapGet req.PublishContext "lun" ≠ "") :
    (getFCDiskDetails E req s).1 =
      .ok { connector :=
              { VolumeName := (Split req.VolumeId "$$").headD ""
                TargetWWNs := targetListOf fcNodes
                WWIDs := Split (mapGet req.VolumeContext "WWIDs") ","
                Lun := mapGet req.PublishContext "lun" }
            disk := "", isBlock := false } := by
  have hw := Split_length_pos (mapGet req.VolumeContext "WWIDs") ","
  simp only [getFCDiskDetails, hp, hlun, hw, and_false, or_self, if_false]

/-- The mounter `NodePublishVolume` builds is never read-only. -/
theorem getFCDiskMounter_ReadOnly (req : NodePublishVolumeRequest) (fcDetails : fcDevice) :
    (getFCDiskMounter req fcDetails).ReadOnly = false := rfl

/-- In filesystem mode `MountFCDisk` formats and mounts whenever the mount-point
test gives no error and the target directory can be made, whatever the flag
`notMnt` of the test. -/
theorem MountFCDisk_ignores_notMnt {σ : Type} (E : Env σ) (fm : FCMounter)
    (devicePath : String) (s : σ) (notMnt : Bool)
    (ht : E.IsLikelyNotMountPoint s fm.TargetPath = (notMnt, none))
    (hb : fm.fcDisk.isBlock = false) (hmk : (E.MkdirAll s fm.TargetPath).1 = .ok ()) :
    Event.FormatAndMount devicePath fm.TargetPath fm.FsType (fsOptions fm) ∈
      (mountStep E fm devicePath s).2.2 := by
  rcases hM : E.MkdirAll s fm.TargetPath with ⟨r, s1⟩
  rw [hM] at hmk
  simp only at hmk
  subst hmk
  simp only [mountStep, ht, mountBranches, hb, Bool.false_eq_true, if_false, mountFs, hM]
  split <;> simp

/-- Claim C1, the code at the failing input.  For the request `reqNoIds` (LUN
"1", no "WWIDs" entry) on a host whose array lists no FC port, the target list
is empty and the WWID list is `[""]`: `getFCDiskDetails` succeeds,
`AttachFCDisk` and `searchDisk` run, the handler reads `/dev/disk/by-id/`, and
the error returned is that of `searchDisk`. -/
theorem publish_without_identifiers_probes :
    mapGet reqNoIds.VolumeContext "WWIDs" = "" ∧
    (hostEnv.GetFCPorts emptyHost).map targetListOf = .ok [] ∧
    (getFCDiskDetails hostEnv reqNoIds emptyHost).1 =
      .ok { connector := { VolumeName := "vol1", TargetWWNs := [], Lun := "1", WWIDs := [""] }
            disk := "", isBlock := false } ∧
    (NodePublishVolume hostEnv reqNoIds emptyHost).1 =
      .error (statusError "Internal" "no fc disk found") ∧
    (NodePublishVolume hostEnv reqNoIds emptyHost).2.2 =
      [Event.GetFCPorts, Event.AttachFCDisk, Event.searchDisk,
       Event.getDisksWwids "", Event.ReadDir "/dev/disk/by-id/",
       Event.scsiHostRescan, Event.ReadDir "/sys/class/scsi_host/",
       Event.getDisksWwids "", Event.ReadDir "/dev/disk/by-id/"] := by
  refine ⟨by decide, by decide, by decide, by decide, by decide⟩

/-- Claim C5, the code at the failing input.  For the block request `reqBlockRO`
with read-only requested, on `hostA`, the mounter is built with
`ReadOnly = false`: `NodePublishVolume` succeeds, having created the target
file and bind-mounted the device read-write. -/
theorem publish_block_readonly_mounts :
    reqBlockRO.VolumeCapability = some AccessType.Block ∧ reqBlockRO.Readonly = true ∧
    (NodePublishVolume hostEnv reqBlockRO hostA).1 = .ok () ∧
    (NodePublishVolume hostEnv reqBlockRO hostA).2.2.filter
        (fun e => e matches .Create _ | .Mount _ _ _ _ | .FormatAndMount _ _ _ _) =
      [Event.Create "/host//var/lib/kubelet/pods/p1/volumeDevices/vol1",
       Event.Mount "/dev/dm-3" "/var/lib/kubelet/pods/p1/volumeDevices/vol1" "" ["bind", "rw"],
       Event.Create "/host/var/lib/kubelet/plugins/fc/vol1/vol1.json"] := by
  refine ⟨by decide, by decide, by decide, by decide⟩

/-- Claim C10, the code at the failing input.  On `hostMountedA` the target path
of `reqA` is a mount point (`IsLikelyNotMountPoint` gives `false` and no
error), and `MountFCDisk` formats and mounts the device all the same. -/
theorem mount_on_mount_point_remounts :
    hostEnv.IsLikelyNotMountPoint hostMountedA reqA.TargetPath = (false, none) ∧
    (MountFCDisk hostEnv
        (getFCDiskMounter reqA { connector := connA, disk := "", isBlock := false })
        "/dev/dm-3" hostMountedA).2.2.filter
        (fun e => e matches .Mount _ _ _ _ | .FormatAndMount _ _ _ _) =
      [Event.FormatAndMount "/dev/dm-3" "/var/lib/kubelet/pods/p1/volumes/vol1/mount" "ext4"
        ["rw"]] := by
  refine ⟨by decide, by decide⟩

/-! ## Disk-state persistence -/

section Persistence

variable {σ : Type}

/-- Claim C4.  In an environment whose file system gives back what was written
to a created file, and whose JSON codec reads back the three fields of the
record it encoded, a successful `createFcConfigFile d dir` is followed by a
successful `loadFcDiskInfoFromFile` for any record with the volume name of `d`
and the same `dir`, which leaves that record equal to `d`; the file created
and the file opened are both `path.Join("/host", dir, d.VolName+".json")`. -/
theorem config_round_trip (E : Env σ) (d : diskInfo) (dir : String) (s : σ)
    (hfs : ∀ (s0 s1 s2 : σ) (f doc : String), E.Create s0 f = (.ok (), s1) →
      E.Write s1 f doc = (.ok (), s2) → E.Open s2 f = .ok doc)
    (hcodec : ∀ doc, E.jsonEncode d = .ok doc →
      E.jsonDecode doc = (none, ⟨some d.MpathDevice, some d.IsBlock, some d.VolName⟩))
    (hc : (createFcConfigFile E d dir s).1 = .ok ())
    (conf : diskInfo) (hv : conf.VolName = d.VolName) :
    (loadFcDiskInfoFromFile E conf dir (createFcConfigFile E d dir s).2.1).1 = (.ok (), d) ∧
    (createFcConfigFile E d dir s).2.2 =
      [Event.createFcConfigFile d.MpathDevice d.IsBlock d.VolName dir,
       Event.Create (Join ["/host", dir, d.VolName ++ ".json"]),
       Event.Encode (Join ["/host", dir, d.VolName ++ ".json"]) d.MpathDevice d.IsBlock
         d.VolName] ∧
    (loadFcDiskInfoFromFile E conf dir (createFcConfigFile E d dir s).2.1).2 =
      [Event.Open (Join ["/host", dir, d.VolName ++ ".json"])] := by
  simp only [createFcConfigFile, writeConfig] at hc ⊢
  rcases hC : E.Create s (Join ["/host", dir, d.VolName ++ ".json"]) with ⟨rc, s1⟩
  simp only [hC] at hc ⊢
  cases rc with
  | error e => simp at hc
  | ok u =>
    cases hJ : E.jsonEncode d with
    | error e => simp [hJ] at hc
    | ok doc =>
      simp only [hJ] at hc ⊢
      rcases hW : E.Write s1 (Join ["/host", dir, d.VolName ++ ".json"]) doc with ⟨rw1, s2⟩
      simp only [hW] at hc ⊢
      cases rw1 with
      | error e => simp at hc
      | ok u2 =>
        have hO := hfs s s1 s2 _ doc hC hW
        have hD := hcodec doc hJ
        simp only [loadFcDiskInfoFromFile, hv, hO, hD, diskInfoFields.into, Option.getD_some,
          and_self]

/-- The file system of the host model gives back what was written to a created
file. -/
theorem hostEnv_read_after_write (s0 s1 s2 : Host) (f doc : String)
    (hC : hostEnv.Create s0 f = (.ok (), s1)) (hW : hostEnv.Write s1 f doc = (.ok (), s2)) :
    hostEnv.Open s2 f = .ok doc := by
  simp only [hostEnv, Prod.mk.injEq, true_and] at hC hW
  subst hC
  subst hW
  simp [hostEnv, List.lookup]

/-- Witness of claim C4: the record of scenario A on the empty host. -/
theorem config_round_trip_witness :
    (createFcConfigFile hostEnv ⟨"/dev/dm-3", false, "vol1"⟩ "/stage/vol1" emptyHost).1 = .ok () ∧
    (loadFcDiskInfoFromFile hostEnv ⟨"", false, "vol1"⟩ "/stage/vol1"
      (createFcConfigFile hostEnv ⟨"/dev/dm-3", false, "vol1"⟩ "/stage/vol1" emptyHost).2.1).1 =
      (.ok (), ⟨"/dev/dm-3", false, "vol1"⟩) :=
  ⟨by decide,
   (config_round_trip hostEnv ⟨"/dev/dm-3", false, "vol1"⟩ "/stage/vol1" emptyHost
      hostEnv_read_after_write
      (fun doc h => by
        have hd : doc = hostJsonEncode ⟨"/dev/dm-3", false, "vol1"⟩ := by
          simp only [hostEnv, Except.ok.injEq] at h
          exact h.symm
        subst hd
        decide)
      (by decide) ⟨"", false, "vol1"⟩ rfl).1⟩

end Persistence

/-! ## Mounting and the persisted record -/

section Mounting

variable {σ : Type}

/-- The block branch leaves the device path without its first "/host" and does
not call `createFcConfigFile`. -/
theorem mountBlock_spec (E : Env σ) (fm : FCMounter) (devicePath : String) (s : σ) :
    (∀ dp, (mountBlock E fm devicePath s).1 = .ok dp → dp = ReplaceFirst devicePath "/host" "") ∧
    (mountBlock E fm devicePath s).2.2.filter Event.isConfigEntry = [] := by
  unfold mountBlock
  split
  · exact ⟨fun dp h => by simp at h, rfl⟩
  · split
    · exact ⟨fun dp h => by simp at h, rfl⟩
    · split
      · exact ⟨fun dp h => by simp at h, rfl⟩
      · exact ⟨fun dp h => by simpa using h.symm, rfl⟩

/-- The filesystem branch leaves the device path as given and does not call
`createFcConfigFile`. -/
theorem mountFs_spec (E : Env σ) (fm : FCMounter) (devicePath : String) (s : σ) :
    (∀ dp, (mountFs E fm devicePath s).1 = .ok dp → dp = devicePath) ∧
    (mountFs E fm devicePath s).2.2.filter Event.isConfigEntry = [] := by
  unfold mountFs
  split
  · exact ⟨fun dp h => by simp at h, rfl⟩
  · split
    · exact ⟨fun dp h => by simp at h, rfl⟩
    · exact ⟨fun dp h => by simpa using h.symm, rfl⟩

/-- The device path the mount branches leave, by mode; neither calls
`createFcConfigFile`. -/
theorem mountBranches_spec (E : Env σ) (fm : FCMounter) (devicePath : String) (s : σ) :
    (∀ dp, (mountBranches E fm devicePath s).1 = .ok dp →
      dp = if fm.fcDisk.isBlock then ReplaceFirst devicePath "/host" "" else devicePath) ∧
    (mountBranches E fm devicePath s).2.2.filter Event.isConfigEntry = [] := by
  unfold mountBranches
  by_cases hb : fm.fcDisk.isBlock = true
  · simp only [hb, if_true]
    by_cases hr : fm.ReadOnly = true
    · simp only [hr, if_true]
      exact ⟨fun dp h => by simp at h, rfl⟩
    · simp only [hr, if_false]
      exact mountBlock_spec E fm devicePath s
  · simp only [hb, if_false]
    exact mountFs_spec E fm devicePath s

/-- The device path the mount step leaves, by mode; the step does not call
`createFcConfigFile`. -/
theorem mountStep_spec (E : Env σ) (fm : FCMounter) (devicePath : String) (s : σ) :
    (∀ dp, (mountStep E fm devicePath s).1 = .ok dp →
      dp = if fm.fcDisk.isBlock then ReplaceFirst devicePath "/host" "" else devicePath) ∧
    (mountStep E fm devicePath s).2.2.filter Event.isConfigEntry = [] := by
  have hb := mountBranches_spec E fm devicePath s
  unfold mountStep
  split
  · split
    · simp only [List.filter_cons, Event.isConfigEntry, hb.2]
      exact ⟨hb.1, rfl⟩
    · exact ⟨fun dp h => by simp at h, rfl⟩
  · simp only [List.filter_cons, Event.isConfigEntry, hb.2]
    exact ⟨hb.1, rfl⟩

/-- The body of `createFcConfigFile` starts by creating the file
`path.Join("/host", mnt, VolName+".json")` and enters no function again. -/
theorem writeConfig_entries (E : Env σ) (conf : diskInfo) (mnt : String) (s : σ) :
    (writeConfig E conf mnt s).2.2.filter Event.isConfigEntry = [] ∧
    (writeConfig E conf mnt s).2.2.head? =
      some (Event.Create (Join ["/host", mnt, conf.VolName ++ ".json"])) := by
  simp only [writeConfig]
  split
  · exact ⟨rfl, rfl⟩
  · split
    · exact ⟨rfl, rfl⟩
    · split <;> exact ⟨rfl, rfl⟩

/-- Claim C7, as amended.  When the mount step of `MountFCDisk` succeeds, the
device path it leaves is the given one with its first "/host" removed in block
mode and the given one in filesystem mode; `MountFCDisk` then calls
`createFcConfigFile` if and only if that path starts with "/dev/dm-", once,
with the record of that path, the block flag and the connector's volume name,
and the staging path; the record goes to the file
`path.Join("/host", StagePath, VolumeName+".json")`, and the result of
`MountFCDisk` is that of the write. -/
theorem MountFCDisk_persists_iff_dm (E : Env σ) (fm : FCMounter) (devicePath : String)
    (s : σ) (dp : String) (hm : (mountStep E fm devicePath s).1 = .ok dp) :
    dp = (if fm.fcDisk.isBlock then ReplaceFirst devicePath "/host" "" else devicePath) ∧
    (MountFCDisk E fm devicePath s).2.2.filter Event.isConfigEntry =
      (if HasPrefix dp "/dev/dm-" then
        [Event.createFcConfigFile dp fm.fcDisk.isBlock fm.fcDisk.connector.VolumeName
          fm.StagePath]
      else []) ∧
    (HasPrefix dp "/dev/dm-" = true →
      (MountFCDisk E fm devicePath s).1 =
        (writeConfig E ⟨dp, fm.fcDisk.isBlock, fm.fcDisk.connector.VolumeName⟩ fm.StagePath
          (mountStep E fm devicePath s).2.1).1 ∧
      (MountFCDisk E fm devicePath s).2.2 =
        (mountStep E fm devicePath s).2.2 ++
          Event.createFcConfigFile dp fm.fcDisk.isBlock fm.fcDisk.connector.VolumeName
            fm.StagePath ::
          (writeConfig E ⟨dp, fm.fcDisk.isBlock, fm.fcDisk.connector.VolumeName⟩ fm.StagePath
            (mountStep E fm devicePath s).2.1).2.2 ∧
      (writeConfig E ⟨dp, fm.fcDisk.isBlock, fm.fcDisk.connector.VolumeName⟩ fm.StagePath
          (mountStep E fm devicePath s).2.1).2.2.head? =
        some (Event.Create
          (Join ["/host", fm.StagePath, fm.fcDisk.connector.VolumeName ++ ".json"]))) ∧
    (HasPrefix dp "/dev/dm-" = false →
      MountFCDisk E fm devicePath s =
        (.ok (), (mountStep E fm devicePath s).2.1, (mountStep E fm devicePath s).2.2)) := by
  have hs := mountStep_spec E fm devicePath s
  refine ⟨hs.1 dp hm, ?_, ?_, ?_⟩
  · unfold MountFCDisk
    rcases hms : mountStep E fm devicePath s with ⟨r, s1, tr⟩
    rw [hms] at hm hs
    simp only at hm
    subst hm
    simp only
    have htr : tr.filter Event.isConfigEntry = [] := hs.2
    by_cases hp : HasPrefix dp "/dev/dm-" = true
    · simp only [hp, if_true, createFcConfigFile, List.filter_append, htr, List.nil_append,
        List.filter_cons, Event.isConfigEntry, (writeConfig_entries E _ _ _).1]
    · simp only [hp, Bool.false_eq_true, if_false, htr]
  · intro hp
    unfold MountFCDisk
    rcases hms : mountStep E fm devicePath s with ⟨r, s1, tr⟩
    rw [hms] at hm
    simp only at hm
    subst hm
    simp only [hp, if_true, createFcConfigFile, true_and]
    exact (writeConfig_entries E _ _ _).2
  · intro hp
    unfold MountFCDisk
    rcases hms : mountStep E fm devicePath s with ⟨r, s1, tr⟩
    rw [hms] at hm
    simp only at hm
    subst hm
    simp only [hp]
    rfl

/-- Witness of claim C7 as amended: scenario A of the specification.  Device
`/dev/dm-3`, filesystem mode, volume `vol1`: the record
`{"/dev/dm-3", false, "vol1"}` is written to `<staging>/vol1.json`. -/
theorem MountFCDisk_persists_iff_dm_witness :
    (mountStep hostEnv fmA "/dev/dm-3" hostA).1 = .ok "/dev/dm-3" ∧
    (MountFCDisk hostEnv fmA "/dev/dm-3" hostA).2.2.filter Event.isConfigEntry =
      [Event.createFcConfigFile "/dev/dm-3" false "vol1" "/var/lib/kubelet/plugins/fc/vol1"] ∧
    (MountFCDisk hostEnv fmA "/dev/dm-3" hostA).2.1.files.lookup
        "/var/lib/kubelet/plugins/fc/vol1/vol1.json" =
      some (hostJsonEncode ⟨"/dev/dm-3", false, "vol1"⟩) :=
  ⟨by decide,
   (MountFCDisk_persists_iff_dm hostEnv fmA "/dev/dm-3" hostA "/dev/dm-3" (by decide)).2.1,
   by decide⟩

/-- Claim C7 as stated fails in block mode.  For the device path
`/host/dev/dm-3`, which does not start with "/dev/dm-", the mount step succeeds
and `MountFCDisk` writes a record all the same, and the record's multipath
device is `/dev/dm-3`, not the device path given. -/
theorem MountFCDisk_persists_host_prefixed :
    fmBlockA.fcDisk.isBlock = true ∧
    (mountStep hostEnv fmBlockA "/host/dev/dm-3" hostA).1 = .ok "/dev/dm-3" ∧
    HasPrefix "/host/dev/dm-3" "/dev/dm-" = false ∧
    (MountFCDisk hostEnv fmBlockA "/host/dev/dm-3" hostA).1 = .ok () ∧
    (MountFCDisk hostEnv fmBlockA "/host/dev/dm-3" hostA).2.2.filter Event.isConfigEntry =
      [Event.createFcConfigFile "/dev/dm-3" true "vol1" "/var/lib/kubelet/plugins/fc/vol1"] ∧
    ¬ ((∃ e ∈ (MountFCDisk hostEnv fmBlockA "/host/dev/dm-3" hostA).2.2,
          e.isConfigEntry = true) ↔
        HasPrefix "/host/dev/dm-3" "/dev/dm-" = true) := by
  refine ⟨by decide, by decide, by decide, by decide, by decide, by decide⟩

end Mounting

/-! ## Unstage -/

section Unstage

variable {σ : Type}

/-- `loadFcDiskInfoFromFile` opens the file `path.Join("/host", mnt, VolName+".json")`
and does nothing else to the outside. -/
theorem loadFcDiskInfoFromFile_trace (E : Env σ) (conf : diskInfo) (mnt : String) (s : σ) :
    (loadFcDiskInfoFromFile E conf mnt s).2 =
      [Event.Open (Join ["/host", mnt, conf.VolName ++ ".json"])] := by
  simp only [loadFcDiskInfoFromFile]
  split
  · rfl
  · split <;> rfl

/-- The detach loop attempts every device, in order, and keeps the message of
the last failure. -/
theorem detachLoop_spec (E : Env σ) (devices : List String) (s : σ) (lastErr : Option String) :
    (detachLoop E s devices lastErr).1 =
      ((detachFailures E s devices).getLast?).or lastErr ∧
    (detachLoop E s devices lastErr).2.2 = devices.map Event.detachDisk := by
  induction devices generalizing s lastErr with
  | nil => exact ⟨by simp [detachLoop, detachFailures], rfl⟩
  | cons d rest ih =>
    unfold detachLoop detachFailures
    rcases hd : E.detachDisk s d with ⟨r, s1⟩
    cases r with
    | error err =>
      simp only [List.map_cons, (ih s1 _).2, and_true, (ih s1 _).1]
      cases hf : detachFailures E s1 rest with
      | nil => simp
      | cons a l =>
        have hl : (a :: l).getLast? = some ((a :: l).getLast (List.cons_ne_nil a l)) :=
          List.getLast?_eq_getLast _ _
        simp [List.getLast?_cons_cons, hl]
    | ok u =>
      simp only [List.map_cons, (ih s1 _).2, and_true, (ih s1 _).1]

/-- A path that starts with "/dev/dm-" does not start with "/host". -/
theorem HasPrefix_dm_not_host (m : String) (h : HasPrefix m "/dev/dm-" = true) :
    HasPrefix m "/host" = false := by
  unfold HasPrefix at h ⊢
  rcases hm : m.data with _ | ⟨a, _ | ⟨b, l⟩⟩
  · rw [hm] at h; simp [List.isPrefixOf] at h
  · rw [hm] at h; simp [List.isPrefixOf] at h
  · rw [hm] at h
    have hb : b = 'd' := by
      have := h
      simp [List.isPrefixOf] at this
      exact this.2.1.symm
    subst hb
    simp [List.isPrefixOf]

/-- Claim C8.  When the record loads and its multipath device starts with
"/dev/dm-", `NodeUnstageVolume` detaches every slave of that device, in order,
whether or not an earlier detach failed; when at least one detach fails, the
call returns the error of the last slave whose detach failed, and nothing
follows the detaches: no multipath flush and no removal of the staging path. -/
theorem unstage_detaches_every_slave (E : Env σ) (req : NodeUnstageVolumeRequest) (s : σ)
    (info : diskInfo)
    (hload : (loadFcDiskInfoFromFile E ⟨"", false, (Split req.VolumeId "$$").headD ""⟩
      req.StagingTargetPath s).1 = (.ok (), info))
    (hdm : HasPrefix info.MpathDevice "/dev/dm-" = true)
    (msg : String)
    (hfail : (detachFailures E s
      (E.findSlaveDevicesOnMultipath s info.MpathDevice)).getLast? = some msg) :
    (NodeUnstageVolume E req s).1 = .error msg ∧
    (NodeUnstageVolume E req s).2.2 =
      Event.Open (Join ["/host", req.StagingTargetPath,
          (Split req.VolumeId "$$").headD "" ++ ".json"]) ::
        Event.findSlaveDevicesOnMultipath info.MpathDevice ::
        (E.findSlaveDevicesOnMultipath s info.MpathDevice).map Event.detachDisk := by
  have hnh := HasPrefix_dm_not_host info.MpathDevice hdm
  have htr := loadFcDiskInfoFromFile_trace E ⟨"", false, (Split req.VolumeId "$$").headD ""⟩
    req.StagingTargetPath s
  have hl := detachLoop_spec E (E.findSlaveDevicesOnMultipath s info.MpathDevice) s none
  rw [hfail] at hl
  rcases hdl : detachLoop E s (E.findSlaveDevicesOnMultipath s info.MpathDevice) none
    with ⟨r, s1, tr⟩
  rw [hdl] at hl
  simp only [Option.or_some] at hl
  obtain ⟨hr, htr2⟩ := hl
  subst hr
  subst htr2
  simp only [NodeUnstageVolume, hload, htr, unstageDetach, hnh, Bool.false_eq_true, if_false,
    hdm, if_true, hdl, List.singleton_append, List.cons_append, List.nil_append, and_self]

/-- Witness of claim C8: scenario C of the specification.  The slaves of
`/dev/dm-3` are `sdd`, whose detach fails, and `sdb`: both are detached and the
call fails with the error for `sdd`. -/
theorem unstage_detaches_every_slave_witness :
    (NodeUnstageVolume hostEnv unstageA hostStagedA).1 =
      .error "fc: detach disk failed. device: sdd err: device or resource busy" ∧
    (NodeUnstageVolume hostEnv unstageA hostStagedA).2.2 =
      [Event.Open "/host/var/lib/kubelet/plugins/fc/vol1/vol1.json",
       Event.findSlaveDevicesOnMultipath "/dev/dm-3",
       Event.detachDisk "sdd", Event.detachDisk "sdb"] :=
  unstage_detaches_every_slave hostEnv unstageA hostStagedA ⟨"/dev/dm-3", false, "vol1"⟩
    (by decide) (by decide) "fc: detach disk failed. device: sdd err: device or resource busy"
    (by decide)

/-- Claim C9.  When the record cannot be loaded and `pathExists` reports,
without error, that the file `path.Join("/host", stagePath, volName+".json")`
does not exist, `NodeUnstageVolume` opens that file, checks it, removes the
staging path and does nothing else; its result is that of the removal. -/
theorem unstage_without_record (E : Env σ) (req : NodeUnstageVolumeRequest) (s : σ)
    (hload : (loadFcDiskInfoFromFile E ⟨"", false, (Split req.VolumeId "$$").headD ""⟩
      req.StagingTargetPath s).1.1 ≠ .ok ())
    (hpe : E.pathExists s (Join ["/host", req.StagingTargetPath,
      (Split req.VolumeId "$$").headD "" ++ ".json"]) = (false, none)) :
    (NodeUnstageVolume E req s).1 = (E.RemoveAll s req.StagingTargetPath).1 ∧
    (NodeUnstageVolume E req s).2.1 = (E.RemoveAll s req.StagingTargetPath).2 ∧
    (NodeUnstageVolume E req s).2.2 =
      [Event.Open (Join ["/host", req.StagingTargetPath,
          (Split req.VolumeId "$$").headD "" ++ ".json"]),
       Event.pathExists (Join ["/host", req.StagingTargetPath,
          (Split req.VolumeId "$$").headD "" ++ ".json"]),
       Event.RemoveAll req.StagingTargetPath] := by
  have htr := loadFcDiskInfoFromFile_trace E ⟨"", false, (Split req.VolumeId "$$").headD ""⟩
    req.StagingTargetPath s
  rcases hL : (loadFcDiskInfoFromFile E ⟨"", false, (Split req.VolumeId "$$").headD ""⟩
      req.StagingTargetPath s).1.1 with err | u
  · rcases hR : E.RemoveAll s req.StagingTargetPath with ⟨r, s1⟩
    cases r with
    | error e =>
      simp only [NodeUnstageVolume, hL, hpe, hR, htr, List.singleton_append, and_self]
    | ok u =>
      simp only [NodeUnstageVolume, hL, hpe, hR, htr, List.singleton_append, and_self]
  · exact absurd hL hload

/-- Witness of claim C9: scenario B of the specification, on the empty host. -/
theorem unstage_without_record_witness :
    (NodeUnstageVolume hostEnv unstageA emptyHost).1 = .ok () ∧
    (NodeUnstageVolume hostEnv unstageA emptyHost).2.2 =
      [Event.Open "/host/var/lib/kubelet/plugins/fc/vol1/vol1.json",
       Event.pathExists "/host/var/lib/kubelet/plugins/fc/vol1/vol1.json",
       Event.RemoveAll "/var/lib/kubelet/plugins/fc/vol1"] :=
  ⟨(unstage_without_record hostEnv unstageA emptyHost (by decide) (by decide)).1,
   (unstage_without_record hostEnv unstageA emptyHost (by decide) (by decide)).2.2⟩

end Unstage

/-! ## Unpublish on the host model -/

section Unpublish

/-- A text contains what one of its suffixes contains. -/
theorem containsL_append_left (xs ys sub : List Char) (h : containsL ys sub = true) :
    containsL (xs ++ ys) sub = true := by
  induction xs with
  | nil => simpa using h
  | cons c cs ih =>
    simp only [List.cons_append, containsL, Bool.or_eq_true]
    exact Or.inr ih

/-- A text contains what it starts with. -/
theorem containsL_self_append (sub rest : List Char) : containsL (sub ++ rest) sub = true := by
  cases hs : sub ++ rest with
  | nil =>
    have : sub = [] := (List.append_eq_nil.mp hs).1
    simp [containsL, this]
  | cons c cs =>
    simp only [containsL, Bool.or_eq_true]
    left
    rw [← hs]
    exact List.isPrefixOf_iff_prefix.mpr (List.prefix_append sub rest)

/-- The message of `umount` for a path that is not a mount point has the words
`DetachFCDisk` looks for. -/
theorem Contains_not_mounted (t : String) :
    Contains ("umount: " ++ t ++ ": not mounted.") "not mounted" = true := by
  unfold Contains
  have h : ("umount: " ++ t ++ ": not mounted.").data =
      ("umount: ".data ++ t.data ++ ": ".data) ++ ("not mounted".data ++ ".".data) := by
    simp only [String.data_append]
    simp
  rw [h]
  exact containsL_append_left _ _ _ (containsL_self_append _ _)

/-- Removal does not change what paths name. -/
theorem hostEnv_RemoveAll_resolve (h : Host) (p : String) :
    (hostEnv.RemoveAll h p).2.resolve = h.resolve := by
  simp only [hostEnv]
  split <;> rfl

/-- Removal does not change the mount table. -/
theorem hostEnv_RemoveAll_mounted (h : Host) (p : String) :
    (hostEnv.RemoveAll h p).2.mounted = h.mounted := by
  simp only [hostEnv]
  split <;> rfl

/-- The objects removal leaves: those outside the path and the busy ones. -/
theorem hostEnv_RemoveAll_nodes (h : Host) (p : String) :
    (hostEnv.RemoveAll h p).2.nodes =
      h.nodes.filter fun o => !(inside (h.resolve p) o && !h.busy o) := by
  simp only [hostEnv]
  split <;> rfl

/-- Removal succeeds exactly when it leaves nothing in the path. -/
theorem hostEnv_RemoveAll_ok (h : Host) (p : String) :
    (hostEnv.RemoveAll h p).1 = .ok () ↔
      (hostEnv.RemoveAll h p).2.nodes.any (inside (h.resolve p)) = false := by
  simp only [hostEnv]
  split
  · rename_i hc
    simp only [hc]
    simp
  · rename_i hc
    simp only [Bool.not_eq_true] at hc
    simp only [hc]

/-- On the host model `DetachFCDisk` succeeds in every state in which the
target path and its host-prefixed form name the same object and, if that
object is mounted, nothing exists in the directory the call removes. -/
theorem DetachFCDisk_ok_of (g : Host) (t : String)
    (halias : g.resolve (Join ["/host", t]) = g.resolve t)
    (hcond : g.mounted.contains (g.resolve t) = true →
      g.nodes.any (inside (g.resolve (Dir ("/host" ++ t)))) = false) :
    (DetachFCDisk hostEnv t g).1 = .ok () := by
  by_cases hn : g.nodes.contains (g.resolve t) = true
  · have hpe : hostEnv.pathExists g t = (true, none) := by simp only [hostEnv, hn]
    simp only [DetachFCDisk, hpe]
    by_cases hm : g.mounted.contains (g.resolve t) = true
    · have hU : hostEnv.Unmount g t =
          (.ok (), { g with mounted := g.mounted.erase (g.resolve t) }) := by
        simp only [hostEnv, hm, if_true]
      have hok := (hostEnv_RemoveAll_ok { g with mounted := g.mounted.erase (g.resolve t) }
        (Dir ("/host" ++ t))).mpr (by
          rw [hostEnv_RemoveAll_nodes]
          have h0 := hcond hm
          simp only [List.any_eq_false, List.mem_filter] at h0 ⊢
          intro o ho
          exact h0 o ho.1)
      rcases hR : hostEnv.RemoveAll { g with mounted := g.mounted.erase (g.resolve t) }
        (Dir ("/host" ++ t)) with ⟨r, g2⟩
      rw [hR] at hok
      simp only at hok
      subst hok
      simp only [unmountAndRemove, hU, hR]
    · have hU : hostEnv.Unmount g t = (.error ("umount: " ++ t ++ ": not mounted."), g) := by
        simp only [hostEnv, hm, hn, if_true, Bool.false_eq_true, if_false]
      simp only [unmountAndRemove, hU, Contains_not_mounted, if_true]
  · have hpe : hostEnv.pathExists g t = (false, none) := by
      simp only [hostEnv]
      simp only [Bool.not_eq_true] at hn
      rw [hn]
    have hpe2 : (hostEnv.pathExists g (Join ["/host", t])).1 = false := by
      simp only [hostEnv, halias]
      simpa using hn
    simp only [DetachFCDisk, hpe, hpe2, Bool.false_eq_true, if_false]

/-- Claim C6.  On the host model, for a target path that names the same object
with and without the host prefix (the layout `MountFCDisk` relies on when it
creates the target under "/host/" and mounts on the path itself): when a call
of `DetachFCDisk` succeeds, a second call in the state it leaves succeeds. -/
theorem DetachFCDisk_idempotent (h : Host) (targetPath : String)
    (halias : h.resolve (Join ["/host", targetPath]) = h.resolve targetPath)
    (hfirst : (DetachFCDisk hostEnv targetPath h).1 = .ok ()) :
    (DetachFCDisk hostEnv targetPath (DetachFCDisk hostEnv targetPath h).2.1).1 = .ok () := by
  by_cases hn : h.nodes.contains (h.resolve targetPath) = true
  · have hpe : hostEnv.pathExists h targetPath = (true, none) := by simp only [hostEnv, hn]
    by_cases hm : h.mounted.contains (h.resolve targetPath) = true
    · have hU : hostEnv.Unmount h targetPath =
          (.ok (), { h with mounted := h.mounted.erase (h.resolve targetPath) }) := by
        simp only [hostEnv, hm, if_true]
      have hres := hostEnv_RemoveAll_resolve
        { h with mounted := h.mounted.erase (h.resolve targetPath) } (Dir ("/host" ++ targetPath))
      have hok := hostEnv_RemoveAll_ok
        { h with mounted := h.mounted.erase (h.resolve targetPath) } (Dir ("/host" ++ targetPath))
      rcases hR : hostEnv.RemoveAll { h with mounted := h.mounted.erase (h.resolve targetPath) }
        (Dir ("/host" ++ targetPath)) with ⟨r, g2⟩
      rw [hR] at hres hok
      simp only [DetachFCDisk, hpe, unmountAndRemove, hU, hR] at hfirst ⊢
      cases r with
      | error e => simp at hfirst
      | ok u =>
        simp only at hres
        apply DetachFCDisk_ok_of
        · rw [hres]; exact halias
        · intro _
          rw [hres]
          exact hok.mp rfl
    · have hU : hostEnv.Unmount h targetPath =
          (.error ("umount: " ++ targetPath ++ ": not mounted."), h) := by
        simp only [hostEnv, hm, hn, if_true, Bool.false_eq_true, if_false]
      have hres := hostEnv_RemoveAll_resolve h (Dir ("/host" ++ targetPath))
      have hmt := hostEnv_RemoveAll_mounted h (Dir ("/host" ++ targetPath))
      simp only [DetachFCDisk, hpe, unmountAndRemove, hU, Contains_not_mounted, if_true]
      apply DetachFCDisk_ok_of
      · rw [hres]; exact halias
      · intro hc
        rw [hres, hmt] at hc
        exact absurd hc hm
  · have hpe : hostEnv.pathExists h targetPath = (false, none) := by
      simp only [hostEnv]
      simp only [Bool.not_eq_true] at hn
      rw [hn]
    have hpe2 : (hostEnv.pathExists h (Join ["/host", targetPath])).1 = false := by
      simp only [hostEnv, halias]
      simpa using hn
    have hst : (DetachFCDisk hostEnv targetPath h).2.1 = h := by
      simp only [DetachFCDisk, hpe, hpe2, Bool.false_eq_true, if_false]
    rw [hst]
    exact hfirst

/-- Witness of claim C6: the mounted target of `reqA` on `hostMountedA`. -/
theorem DetachFCDisk_idempotent_witness :
    (DetachFCDisk hostEnv reqA.TargetPath hostMountedA).1 = .ok () ∧
    (DetachFCDisk hostEnv reqA.TargetPath
      (DetachFCDisk hostEnv reqA.TargetPath hostMountedA).2.1).1 = .ok () :=
  ⟨by decide, DetachFCDisk_idempotent hostMountedA reqA.TargetPath (by decide) (by decide)⟩

end Unpublish

/-! ## The codec of the host model -/

section HostCodec

/-- A JSON string literal ends with a quote, so it is not empty. -/
theorem jsonQuoteL_ne_nil (s : List Char) : jsonQuoteL s ≠ [] := by
  cases s with
  | nil => simp [jsonQuoteL]
  | cons c cs =>
    unfold jsonQuoteL
    split <;> simp

/-- Reading a JSON string literal gives back the text and the rest. -/
theorem jsonUnquoteL_quote (s rest : List Char) :
    jsonUnquoteL (jsonQuoteL s ++ rest) = some (s, rest) := by
  induction s with
  | nil =>
    cases rest with
    | nil => simp [jsonQuoteL, jsonUnquoteL]
    | cons d r => simp [jsonQuoteL, jsonUnquoteL]
  | cons c cs ih =>
    unfold jsonQuoteL
    by_cases hc : c = '"' ∨ c = '\\'
    · simp only [hc, if_true, List.cons_append]
      unfold jsonUnquoteL
      simp [ih]
    · simp only [hc, if_false, List.cons_append]
      obtain ⟨d, r, hr⟩ : ∃ d r, jsonQuoteL cs ++ rest = d :: r := by
        cases h : jsonQuoteL cs ++ rest with
        | nil => exact absurd (List.append_eq_nil.mp h).1 (jsonQuoteL_ne_nil cs)
        | cons d r => exact ⟨d, r, rfl⟩
      rw [hr] at ih ⊢
      have h1 : ¬ c = '"' := fun h => hc (Or.inl h)
      have h2 : ¬ c = '\\' := fun h => hc (Or.inr h)
      unfold jsonUnquoteL
      simp [h1, h2, ih]

/-- Stripping a literal from an input that starts with it. -/
theorem stripLit_append (lit rest : List Char) : stripLit lit (lit ++ rest) = some rest := by
  unfold stripLit
  have h : lit.isPrefixOf (lit ++ rest) = true :=
    List.isPrefixOf_iff_prefix.mpr (List.prefix_append lit rest)
  simp [h]

/-- Reading a boolean gives back the boolean and the rest. -/
theorem readBool_append (b : Bool) (rest : List Char) :
    readBool ((if b then "true" else "false").data ++ rest) = some (b, rest) := by
  cases b with
  | true =>
    simp only [if_true, readBool, stripLit_append]
  | false =>
    have h1 : stripLit "true".data ("false".data ++ rest) = none := rfl
    simp only [Bool.false_eq_true, if_false, readBool, h1, stripLit_append, Option.map_some']

/-- The decoder of the host model reads back every record its encoder writes. -/
theorem hostJson_round_trip (d : diskInfo) :
    hostJsonDecode (hostJsonEncode d) =
      (none, ⟨some d.MpathDevice, some d.IsBlock, some d.VolName⟩) := by
  unfold hostJsonDecode hostJsonEncode
  simp only [List.append_assoc, stripLit_append, jsonUnquoteL_quote, readBool_append,
    Option.bind_eq_bind, Option.some_bind, Option.pure_def]
  rfl

end HostCodec

/-! ## Unstage with an unreadable record -/

section UnstageUnreadable

variable {σ : Type}

/-- Claim C11, as amended.  When the record cannot be loaded and `pathExists`
does not report, without error, that the record file is absent,
`NodeUnstageVolume` does not return the failure of the load.  It goes on with
an empty multipath device name: it detaches the device "" and returns the
error of that detach if it fails; otherwise it removes the host-prefixed
staging path and returns the result of the removal.  No multipath flush is
made. -/
theorem unstage_unreadable_record (E : Env σ) (req : NodeUnstageVolumeRequest) (s : σ)
    (hload : (loadFcDiskInfoFromFile E ⟨"", false, (Split req.VolumeId "$$").headD ""⟩
      req.StagingTargetPath s).1.1 ≠ .ok ())
    (hpe : E.pathExists s (Join ["/host", req.StagingTargetPath,
      (Split req.VolumeId "$$").headD "" ++ ".json"]) ≠ (false, none)) :
    (NodeUnstageVolume E req s).1 =
      (match E.detachDisk s "" with
        | (.error err, _) => .error ("fc: detach disk failed. device: " ++ "" ++ " err: " ++ err)
        | (.ok _, s1) => (E.RemoveAll s1 ("/host" ++ req.StagingTargetPath)).1) ∧
    (NodeUnstageVolume E req s).2.2 =
      Event.Open (Join ["/host", req.StagingTargetPath,
          (Split req.VolumeId "$$").headD "" ++ ".json"]) ::
        Event.pathExists (Join ["/host", req.StagingTargetPath,
          (Split req.VolumeId "$$").headD "" ++ ".json"]) ::
        Event.detachDisk "" ::
        (match (E.detachDisk s "").1 with
          | .error _ => []
          | .ok _ => [Event.RemoveAll ("/host" ++ req.StagingTargetPath)]) := by
  have htr := loadFcDiskInfoFromFile_trace E ⟨"", false, (Split req.VolumeId "$$").headD ""⟩
    req.StagingTargetPath s
  have h1 : HasPrefix "" "/host" = false := by decide
  have h2 : HasPrefix "" "/dev/dm-" = false := by decide
  rcases hL : (loadFcDiskInfoFromFile E ⟨"", false, (Split req.VolumeId "$$").headD ""⟩
      req.StagingTargetPath s).1.1 with err | u
  · have hU : unstageDetach E "" req.StagingTargetPath s =
        (match E.detachDisk s "" with
          | (.error err, s1) =>
            (.error ("fc: detach disk failed. device: " ++ "" ++ " err: " ++ err), s1,
              [Event.detachDisk ""])
          | (.ok _, s1) =>
            ((E.RemoveAll s1 ("/host" ++ req.StagingTargetPath)).1,
              (E.RemoveAll s1 ("/host" ++ req.StagingTargetPath)).2,
              [Event.detachDisk "", Event.RemoveAll ("/host" ++ req.StagingTargetPath)])) := by
      simp only [unstageDetach, h1, h2, Bool.false_eq_true, if_false, detachLoop]
      rcases hD : E.detachDisk s "" with ⟨r, s1⟩
      cases r with
      | error e => simp only [List.nil_append]
      | ok u =>
        simp only [removeStaging, List.nil_append]
        rcases hR : E.RemoveAll s1 ("/host" ++ req.StagingTargetPath) with ⟨r2, s2⟩
        cases r2 <;> simp
    rcases hP : E.pathExists s (Join ["/host", req.StagingTargetPath,
      (Split req.VolumeId "$$").headD "" ++ ".json"]) with ⟨b, e⟩
    rw [hP] at hpe
    have hN : NodeUnstageVolume E req s =
        ((unstageDetach E "" req.StagingTargetPath s).1,
          (unstageDetach E "" req.StagingTargetPath s).2.1,
          Event.Open (Join ["/host", req.StagingTargetPath,
            (Split req.VolumeId "$$").headD "" ++ ".json"]) ::
          Event.pathExists (Join ["/host", req.StagingTargetPath,
            (Split req.VolumeId "$$").headD "" ++ ".json"]) ::
          (unstageDetach E "" req.StagingTargetPath s).2.2) := by
      cases b with
      | true => simp only [NodeUnstageVolume, hL, hP, htr, List.singleton_append]
      | false =>
        cases e with
        | none => exact absurd rfl hpe
        | some e' => simp only [NodeUnstageVolume, hL, hP, htr, List.singleton_append]
    rw [hN, hU]
    rcases hD : E.detachDisk s "" with ⟨r, s1⟩
    cases r <;> simp
  · exact absurd hL hload

/-- Witness of claim C11 as amended: the record file of `hostGarbledA` exists
and does not parse; the call detaches the device "", removes the staging path
and succeeds. -/
theorem unstage_unreadable_record_witness :
    (NodeUnstageVolume hostEnv unstageA hostGarbledA).1 = .ok () ∧
    (NodeUnstageVolume hostEnv unstageA hostGarbledA).2.2 =
      [Event.Open "/host/var/lib/kubelet/plugins/fc/vol1/vol1.json",
       Event.pathExists "/host/var/lib/kubelet/plugins/fc/vol1/vol1.json",
       Event.detachDisk "",
       Event.RemoveAll "/host/var/lib/kubelet/plugins/fc/vol1"] :=
  unstage_unreadable_record hostEnv unstageA hostGarbledA (by decide) (by decide)

/-- Claim C11 as stated fails.  On `hostGarbledA` the record file exists and
`loadFcDiskInfoFromFile` fails on it with a decode error, and
`NodeUnstageVolume` returns success after a detach and the removal of the
staging path. -/
theorem unstage_unreadable_record_succeeds :
    hostEnv.pathExists hostGarbledA "/host/var/lib/kubelet/plugins/fc/vol1/vol1.json" =
      (true, none) ∧
    (loadFcDiskInfoFromFile hostEnv ⟨"", false, "vol1"⟩ unstageA.StagingTargetPath
      hostGarbledA).1.1 = .error "fc: decode err: invalid character " ∧
    (NodeUnstageVolume hostEnv unstageA hostGarbledA).1 = .ok () ∧
    Event.detachDisk "" ∈ (NodeUnstageVolume hostEnv unstageA hostGarbledA).2.2 ∧
    Event.RemoveAll "/host/var/lib/kubelet/plugins/fc/vol1" ∈
      (NodeUnstageVolume hostEnv unstageA hostGarbledA).2.2 := by
  refine ⟨by decide, by decide, by decide, by decide, by decide⟩

end UnstageUnreadable

/-! ## The locators and the candidates of a pass -/

section Locators

variable {σ : Type}

/-- When no candidate has a multipath parent in either pass, the result of
`searchDisk` is decided by what the last candidate gave in the second pass. -/
theorem searchDisk_last_candidate (E : Env σ) (io : ioHandler σ) (c : Connector) (s : σ)
    (h1 : ∀ y ∈ candidates c, (locate E io c s y).1.2 = "")
    (h2 : ∀ y ∈ candidates c, (locate E io c (scsiHostRescan io s).1 y).1.2 = "")
    (hne : candidates c ≠ []) :
    (searchDisk E io c s).1 =
      searchDiskResult (locate E io c (scsiHostRescan io s).1
        ((candidates c).getLast hne)).1 := by
  have p1 := (probePass_no_dm E io c s (candidates c) ("", "") h1).1
  have e1 : (probePass E io c s (candidates c) ("", "")).1.2 = "" := by
    rw [p1]
    generalize candidates c = ids at h1
    induction ids using List.reverseRecOn with
    | nil => rfl
    | append_singleton l a _ =>
      simp only [List.map_append, List.map_cons, List.map_nil]
      rw [List.getLastD_concat]
      exact h1 a (by simp)
  have p2 := (probePass_no_dm E io c (scsiHostRescan io s).1 (candidates c)
    (probePass E io c s (candidates c) ("", "")).1 h2).1
  simp only [searchDisk, e1, ne_eq, not_true_eq_false, if_false, p2]
  congr 1
  generalize candidates c = ids at hne
  induction ids using List.reverseRecOn with
  | nil => exact absurd rfl hne
  | append_singleton l a _ =>
    simp only [List.map_append, List.map_cons, List.map_nil]
    rw [List.getLastD_concat, List.getLast_append_singleton]

/-- Claim C12, the code at the failing input.  On `hostA` the locator gives the
raw disk `/host/dev/sdc` for the first candidate of `connLost`, before and
after the rescan, and nothing for the second; `searchDisk` fails with "no fc
disk found", because the second candidate overwrote the disk of the first. -/
theorem searchDisk_loses_raw_disk :
    candidates connLost = ["500507681023aaaa", "5005076810239999"] ∧
    (locate hostEnv hostIo connLost hostA "500507681023aaaa").1 = ("/host/dev/sdc", "") ∧
    (locate hostEnv hostIo connLost (scsiHostRescan hostIo hostA).1 "500507681023aaaa").1 =
      ("/host/dev/sdc", "") ∧
    (locate hostEnv hostIo connLost (scsiHostRescan hostIo hostA).1 "5005076810239999").1 =
      ("", "") ∧
    (searchDisk hostEnv hostIo connLost hostA).1 = .error "no fc disk found" := by
  refine ⟨by decide, by decide, by decide, by decide, by decide⟩

/-- The loop of `getDisksWwids` never gives a multipath path. -/
theorem getDisksWwidsLoop_dm_empty (E : Env σ) (io : ioHandler σ) (s : σ) (FcPath : String)
    (dirs : List String) : (getDisksWwidsLoop E io s FcPath dirs).1.2 = "" := by
  induction dirs with
  | nil => rfl
  | cons name rest ih =>
    unfold getDisksWwidsLoop
    split
    · split
      · rfl
      · split
        · rfl
        · exact ih
    · exact ih

/-- The loop of `getDisksWwids` gives a raw disk only for an entry whose
multipath lookup failed. -/
theorem getDisksWwidsLoop_disk (E : Env σ) (io : ioHandler σ) (s : σ) (FcPath : String)
    (dirs : List String) (h : (getDisksWwidsLoop E io s FcPath dirs).1.1 ≠ "") :
    ∃ err, (findMultipathDeviceForDevice E io s
      (getDisksWwidsLoop E io s FcPath dirs).1.1).1 = .error err := by
  induction dirs with
  | nil => exact absurd rfl h
  | cons name rest ih =>
    unfold getDisksWwidsLoop at h ⊢
    by_cases hn : name = FcPath
    · simp only [hn, if_true] at h ⊢
      cases hE : io.EvalSymlinks s ("/dev/disk/by-id/" ++ FcPath) with
      | error e => simp only [hE] at h; exact absurd rfl h
      | ok disk =>
        simp only [hE] at h ⊢
        rcases hM : findMultipathDeviceForDevice E io s disk with ⟨r, tr⟩
        cases r with
        | error err =>
          simp only [hM]
          exact ⟨err, rfl⟩
        | ok dm =>
          simp only [hM] at h ⊢
          exact ih h
    · simp only [hn, if_false] at h ⊢
      exact ih h

/-- `getDisksWwids` never gives a multipath path, and it gives a raw disk only
when the multipath lookup for that disk failed. -/
theorem getDisksWwids_only_on_failure (E : Env σ) (io : ioHandler σ) (s : σ) (wwid : String) :
    (getDisksWwids E io s wwid).1.2 = "" ∧
    ((getDisksWwids E io s wwid).1.1 ≠ "" →
      ∃ err, (findMultipathDeviceForDevice E io s (getDisksWwids E io s wwid).1.1).1 =
        .error err) := by
  unfold getDisksWwids
  split
  · exact ⟨getDisksWwidsLoop_dm_empty E io s _ _, getDisksWwidsLoop_disk E io s _ _⟩
  · exact ⟨rfl, fun h => absurd rfl h⟩

/-- Claim C13, the code at the failing input.  On `hostWwidA` the by-id
directory has the entry `scsi-36742b0f0000004e20000000000000a01`, it resolves
to `/dev/sdb`, and the multipath lookup for `/dev/sdb` succeeds with
`/dev/dm-3`; `getDisksWwids` returns two empty strings. -/
theorem getDisksWwids_drops_found_disk :
    hostIo.ReadDir hostWwidA "/dev/disk/by-id/" =
      .ok ["scsi-36742b0f0000004e20000000000000a01"] ∧
    hostIo.EvalSymlinks hostWwidA "/dev/disk/by-id/scsi-36742b0f0000004e20000000000000a01" =
      .ok "/dev/sdb" ∧
    (findMultipathDeviceForDevice hostEnv hostIo hostWwidA "/dev/sdb").1 = .ok "/dev/dm-3" ∧
    (getDisksWwids hostEnv hostIo hostWwidA "36742b0f0000004e20000000000000a01").1 =
      ("", "") := by
  refine ⟨by decide, by decide, by decide, by decide⟩

/-- Claim C14, the code at the failing input.  On `hostLun10` the by-path
directory has one entry, for LUN 10 of port `5005076810234567`; `findFcDisk`
for LUN 1 of that port returns the disk of that entry, because the entry's
name contains "-fc-0x5005076810234567-lun-1". -/
theorem findFcDisk_selects_other_lun :
    hostIo.ReadDir hostLun10 "/host/dev/disk/by-path/" =
      .ok ["pci-0000:3b:00.0-fc-0x5005076810234567-lun-10"] ∧
    hostIo.EvalSymlinks hostLun10
        "/host/dev/disk/by-path/pci-0000:3b:00.0-fc-0x5005076810234567-lun-10" =
      .ok "/host/dev/sdk" ∧
    (findFcDisk hostEnv hostIo hostLun10 "5005076810234567" "1").1 = ("/host/dev/sdk", "") ∧
    (findFcDisk hostEnv hostIo hostLun10 "5005076810234567" "10").1 =
      ("/host/dev/sdk", "") := by
  refine ⟨by decide, by decide, by decide, by decide⟩

end Locators

/-! ## Stage: port registration -/

section StageFacts

variable {σ : Type}

/-- The registration loop makes calls for the missing ports only, in order:
its events are an initial part of their registrations. -/
theorem stageLoop_events (E : Env σ) (hstID : Int) (ports : String) (fcPorts : List String)
    (s : σ) :
    (stageLoop E hstID ports s fcPorts).2.2 <+:
      ((missingPorts ports fcPorts).map (registrationOf hstID)).flatten := by
  induction fcPorts generalizing s with
  | nil => simp [stageLoop, missingPorts]
  | cons fcp rest ih =>
    by_cases hc : Contains ports fcp = true
    · have hm : missingPorts ports (fcp :: rest) = missingPorts ports rest := by
        simp [missingPorts, hc]
      have hl : stageLoop E hstID ports s (fcp :: rest) = stageLoop E hstID ports s rest := by
        simp [stageLoop, hc]
      rw [hm, hl]
      exact ih s
    · have hm : missingPorts ports (fcp :: rest) = fcp :: missingPorts ports rest := by
        simp [missingPorts, hc]
      rw [hm]
      simp only [List.map_cons, List.flatten_cons, registrationOf, List.cons_append,
        List.nil_append]
      rcases hA : E.AddPortForHost s hstID "FC" fcp with ⟨ra, s1⟩
      cases ra with
      | error err => simp [stageLoop, hc, hA]
      | ok u =>
        cases hG : E.GetHostPort s1 hstID fcp with
        | error err => simp [stageLoop, hc, hA, hG]
        | ok v =>
          have h1 := ih s1
          simpa [stageLoop, hc, hA, hG] using h1

/-- When every missing port registers and verifies, the loop succeeds in the
state these calls leave, having made all of them. -/
theorem stageLoop_ok (E : Env σ) (hstID : Int) (ports : String) (fcPorts : List String)
    (s s' : σ)
    (h : afterRegistering E hstID s (missingPorts ports fcPorts) = some s') :
    stageLoop E hstID ports s fcPorts =
      (.ok (), s', ((missingPorts ports fcPorts).map (registrationOf hstID)).flatten) := by
  induction fcPorts generalizing s with
  | nil =>
    simp only [missingPorts, List.filter_nil, afterRegistering, Option.some.injEq] at h
    subst h
    rfl
  | cons fcp rest ih =>
    by_cases hc : Contains ports fcp = true
    · have hm : missingPorts ports (fcp :: rest) = missingPorts ports rest := by
        simp [missingPorts, hc]
      have hl : stageLoop E hstID ports s (fcp :: rest) = stageLoop E hstID ports s rest := by
        simp [stageLoop, hc]
      rw [hm] at h ⊢
      rw [hl]
      exact ih s h
    · have hm : missingPorts ports (fcp :: rest) = fcp :: missingPorts ports rest := by
        simp [missingPorts, hc]
      rw [hm] at h ⊢
      simp only [afterRegistering] at h
      rcases hA : E.AddPortForHost s hstID "FC" fcp with ⟨ra, s1⟩
      rw [hA] at h
      cases ra with
      | error err => simp at h
      | ok u =>
        simp only at h
        cases hG : E.GetHostPort s1 hstID fcp with
        | error err => rw [hG] at h; simp at h
        | ok v =>
          rw [hG] at h
          simp only at h
          have h1 := ih s1 h
          simp [stageLoop, hc, hA, hG, h1, registrationOf]

/-- The loop succeeds only if every missing port registered and verified. -/
theorem stageLoop_ok_only (E : Env σ) (hstID : Int) (ports : String) (fcPorts : List String)
    (s : σ) (h : (stageLoop E hstID ports s fcPorts).1 = .ok ()) :
    ∃ s', afterRegistering E hstID s (missingPorts ports fcPorts) = some s' := by
  induction fcPorts generalizing s with
  | nil => exact ⟨s, rfl⟩
  | cons fcp rest ih =>
    by_cases hc : Contains ports fcp = true
    · have hm : missingPorts ports (fcp :: rest) = missingPorts ports rest := by
        simp [missingPorts, hc]
      have hl : stageLoop E hstID ports s (fcp :: rest) = stageLoop E hstID ports s rest := by
        simp [stageLoop, hc]
      rw [hm]
      rw [hl] at h
      exact ih s h
    · have hm : missingPorts ports (fcp :: rest) = fcp :: missingPorts ports rest := by
        simp [missingPorts, hc]
      rw [hm]
      simp only [afterRegistering]
      rcases hA : E.AddPortForHost s hstID "FC" fcp with ⟨ra, s1⟩
      cases ra with
      | error err => simp [stageLoop, hc, hA] at h
      | ok u =>
        cases hG : E.GetHostPort s1 hstID fcp with
        | error err => simp [stageLoop, hc, hA, hG] at h
        | ok v =>
          simp only [hG]
          apply ih s1
          simpa [stageLoop, hc, hA, hG] using h

/-- The first failure ends the loop.  When the missing ports before `p` register
and verify and then the registration of `p` fails, or succeeds and its
verification fails, the loop returns that failure as an Internal status error
in the state the failed call leaves, and the failed call is its last event. -/
theorem stageLoop_first_failure (E : Env σ) (hstID : Int) (ports : String)
    (fcPorts : List String) (s : σ) (pre : List String) (p : String) (post : List String)
    (s' : σ) (hsplit : missingPorts ports fcPorts = pre ++ p :: post)
    (hpre : afterRegistering E hstID s pre = some s') :
    (∀ err s1, E.AddPortForHost s' hstID "FC" p = (.error err, s1) →
      stageLoop E hstID ports s fcPorts =
        (.error (statusError "Internal" err), s1,
          (pre.map (registrationOf hstID)).flatten ++ [Event.AddPortForHost hstID "FC" p])) ∧
    (∀ err s1, E.AddPortForHost s' hstID "FC" p = (.ok (), s1) →
      E.GetHostPort s1 hstID p = .error err →
      stageLoop E hstID ports s fcPorts =
        (.error (statusError "Internal" err), s1,
          (pre.map (registrationOf hstID)).flatten ++
            [Event.AddPortForHost hstID "FC" p, Event.GetHostPort hstID p])) := by
  induction fcPorts generalizing s pre with
  | nil =>
    simp only [missingPorts, List.filter_nil] at hsplit
    exact absurd hsplit (by simp)
  | cons fcp rest ih =>
    by_cases hc : Contains ports fcp = true
    · have hm : missingPorts ports (fcp :: rest) = missingPorts ports rest := by
        simp [missingPorts, hc]
      have hl : stageLoop E hstID ports s (fcp :: rest) = stageLoop E hstID ports s rest := by
        simp [stageLoop, hc]
      rw [hm] at hsplit
      rw [hl]
      exact ih s pre hsplit hpre
    · have hm : missingPorts ports (fcp :: rest) = fcp :: missingPorts ports rest := by
        simp [missingPorts, hc]
      rw [hm] at hsplit
      cases pre with
      | nil =>
        simp only [List.nil_append, List.cons.injEq] at hsplit
        obtain ⟨hp, _⟩ := hsplit
        subst hp
        simp only [afterRegistering, Option.some.injEq] at hpre
        subst hpre
        constructor
        · intro err s1 hA
          simp [stageLoop, hc, hA]
        · intro err s1 hA hG
          simp [stageLoop, hc, hA, hG]
      | cons q pre' =>
        simp only [List.cons_append, List.cons.injEq] at hsplit
        obtain ⟨hq, hrest⟩ := hsplit
        subst hq
        simp only [afterRegistering] at hpre
        rcases hA0 : E.AddPortForHost s hstID "FC" fcp with ⟨ra, t1⟩
        rw [hA0] at hpre
        cases ra with
        | error e0 => simp at hpre
        | ok u =>
          simp only at hpre
          cases hG0 : E.GetHostPort t1 hstID fcp with
          | error e0 => rw [hG0] at hpre; simp at hpre
          | ok v =>
            rw [hG0] at hpre
            simp only at hpre
            obtain ⟨i1, i2⟩ := ih t1 pre' hrest hpre
            constructor
            · intro err s1 hA
              simp [stageLoop, hc, hA0, hG0, i1 err s1 hA, registrationOf]
            · intro err s1 hA hG
              simp [stageLoop, hc, hA0, hG0, i2 err s1 hA hG, registrationOf]

end StageFacts

section StageContract

variable {σ : Type}

/-- What `NodeStageVolume` does with a host id of at least 1 and at least one
local port, where a port counts as missing when it does not occur in the
"hostPorts" text of the publish context.  The call succeeds exactly when every
missing port registers and verifies, and then it has made all these calls, in
order.  The first missing port whose registration fails, or whose verification
fails after a successful registration, ends the call at once with that failure
as an Internal status error, no call being made for the ports after it.  No
call is ever made for a port that occurs in the text. -/
theorem NodeStageVolume_outcomes (E : Env σ) (req : NodeStageVolumeRequest) (s : σ)
    (hid : 1 ≤ Atoi (mapGet req.PublishContext "hostID"))
    (hports : (getPortName E s).1 ≠ []) :
    ((NodeStageVolume E req s).1 = .ok () ↔
      ∃ s', afterRegistering E (Atoi (mapGet req.PublishContext "hostID")) s
        (missingPorts (mapGet req.PublishContext "hostPorts") (getPortName E s).1) = some s') ∧
    (∀ s', afterRegistering E (Atoi (mapGet req.PublishContext "hostID")) s
        (missingPorts (mapGet req.PublishContext "hostPorts") (getPortName E s).1) = some s' →
      NodeStageVolume E req s =
        (.ok (), s', (getPortName E s).2 ++
          ((missingPorts (mapGet req.PublishContext "hostPorts") (getPortName E s).1).map
            (registrationOf (Atoi (mapGet req.PublishContext "hostID")))).flatten)) ∧
    (∀ pre p post s',
      missingPorts (mapGet req.PublishContext "hostPorts") (getPortName E s).1 =
        pre ++ p :: post →
      afterRegistering E (Atoi (mapGet req.PublishContext "hostID")) s pre = some s' →
      (∀ err s1,
        E.AddPortForHost s' (Atoi (mapGet req.PublishContext "hostID")) "FC" p =
          (.error err, s1) →
        NodeStageVolume E req s =
          (.error (statusError "Internal" err), s1, (getPortName E s).2 ++
            ((pre.map (registrationOf (Atoi (mapGet req.PublishContext "hostID")))).flatten ++
              [Event.AddPortForHost (Atoi (mapGet req.PublishContext "hostID")) "FC" p]))) ∧
      (∀ err s1,
        E.AddPortForHost s' (Atoi (mapGet req.PublishContext "hostID")) "FC" p =
          (.ok (), s1) →
        E.GetHostPort s1 (Atoi (mapGet req.PublishContext "hostID")) p = .error err →
        NodeStageVolume E req s =
          (.error (statusError "Internal" err), s1, (getPortName E s).2 ++
            ((pre.map (registrationOf (Atoi (mapGet req.PublishContext "hostID")))).flatten ++
              [Event.AddPortForHost (Atoi (mapGet req.PublishContext "hostID")) "FC" p,
               Event.GetHostPort (Atoi (mapGet req.PublishContext "hostID")) p])))) ∧
    (∀ p, Contains (mapGet req.PublishContext "hostPorts") p = true →
      Event.AddPortForHost (Atoi (mapGet req.PublishContext "hostID")) "FC" p ∉
        (NodeStageVolume E req s).2.2 ∧
      Event.GetHostPort (Atoi (mapGet req.PublishContext "hostID")) p ∉
        (NodeStageVolume E req s).2.2) := by
  have hlen : ¬ (getPortName E s).1.length = 0 := by
    intro h
    exact hports (List.length_eq_zero.mp h)
  have hnot : ¬ Atoi (mapGet req.PublishContext "hostID") < 1 := by omega
  have hN : NodeStageVolume E req s =
      ((stageLoop E (Atoi (mapGet req.PublishContext "hostID"))
          (mapGet req.PublishContext "hostPorts") s (getPortName E s).1).1,
        (stageLoop E (Atoi (mapGet req.PublishContext "hostID"))
          (mapGet req.PublishContext "hostPorts") s (getPortName E s).1).2.1,
        (getPortName E s).2 ++
          (stageLoop E (Atoi (mapGet req.PublishContext "hostID"))
            (mapGet req.PublishContext "hostPorts") s (getPortName E s).1).2.2) := by
    simp only [NodeStageVolume, hnot, if_false, hlen]
  refine ⟨⟨fun h => ?_, fun h => ?_⟩, fun s' h => ?_, fun pre p post s' hsplit hpre => ⟨?_, ?_⟩,
    fun p hp => ?_⟩
  · rw [hN] at h
    exact stageLoop_ok_only E _ _ _ s h
  · obtain ⟨s', h'⟩ := h
    rw [hN, stageLoop_ok E _ _ _ s s' h']
  · rw [hN, stageLoop_ok E _ _ _ s s' h]
  · intro err s1 hA
    rw [hN, (stageLoop_first_failure E _ _ _ s pre p post s' hsplit hpre).1 err s1 hA]
  · intro err s1 hA hG
    rw [hN, (stageLoop_first_failure E _ _ _ s pre p post s' hsplit hpre).2 err s1 hA hG]
  · have hsub := (stageLoop_events E (Atoi (mapGet req.PublishContext "hostID"))
      (mapGet req.PublishContext "hostPorts") (getPortName E s).1 s).subset
    have hout : ∀ ev ∈ (getPortName E s).2,
        ev = Event.Output "bash" ["-c", "cat /sys/class/fc_host/host*/port_name"] := by
      intro ev hev
      simpa [getPortName] using hev
    have key : ∀ ev, ev ∈ ((missingPorts (mapGet req.PublishContext "hostPorts")
        (getPortName E s).1).map
          (registrationOf (Atoi (mapGet req.PublishContext "hostID")))).flatten →
        ev ≠ Event.AddPortForHost (Atoi (mapGet req.PublishContext "hostID")) "FC" p ∧
        ev ≠ Event.GetHostPort (Atoi (mapGet req.PublishContext "hostID")) p := by
      intro ev hev
      simp only [List.mem_flatten, List.mem_map] at hev
      obtain ⟨l, ⟨q, hq, hl⟩, hin⟩ := hev
      subst hl
      have hqc : Contains (mapGet req.PublishContext "hostPorts") q = false := by
        simpa [missingPorts] using (List.mem_filter.mp hq).2
      have hqp : q ≠ p := by
        intro h
        rw [h, hp] at hqc
        exact Bool.noConfusion hqc
      simp only [registrationOf, List.mem_cons, List.mem_singleton, List.not_mem_nil,
        or_false] at hin
      rcases hin with h | h
      · subst h
        constructor
        · intro h'
          injection h' with _ _ h3
          exact hqp h3
        · intro h'
          cases h'
      · subst h
        constructor
        · intro h'
          cases h'
        · intro h'
          injection h' with _ h3
          exact hqp h3
    rw [hN]
    constructor
    · intro h
      rcases List.mem_append.mp h with h | h
      · have := hout _ h
        cases this
      · exact (key _ (hsub h)).1 rfl
    · intro h
      rcases List.mem_append.mp h with h | h
      · have := hout _ h
        cases this
      · exact (key _ (hsub h)).2 rfl

/-- The three outcomes of `NodeStageVolume` on the node `hostNodeA`, whose ports
are `5005076810234567` and `500507681023aaaa`.  Host 7 has the second port: the
first is registered and verified and the call succeeds.  The array refuses the
first port: the call fails at once and the second port is not tried.  The array
does not return the second port after registering it: the call fails after
that verification. -/
theorem NodeStageVolume_examples :
    ((NodeStageVolume hostEnv stageA hostNodeA).1 = .ok () ∧
      (NodeStageVolume hostEnv stageA hostNodeA).2.2 =
        [Event.Output "bash" ["-c", "cat /sys/class/fc_host/host*/port_name"],
         Event.AddPortForHost 7 "FC" "5005076810234567",
         Event.GetHostPort 7 "5005076810234567"]) ∧
    ((NodeStageVolume hostEnv stageNone hostRefusingA).1 =
        .error (statusError "Internal" "PORT_REJECTED") ∧
      (NodeStageVolume hostEnv stageNone hostRefusingA).2.2 =
        [Event.Output "bash" ["-c", "cat /sys/class/fc_host/host*/port_name"],
         Event.AddPortForHost 7 "FC" "5005076810234567"]) ∧
    ((NodeStageVolume hostEnv stageNone hostUnlistedA).1 =
        .error (statusError "Internal" "PORT_NOT_FOUND") ∧
      (NodeStageVolume hostEnv stageNone hostUnlistedA).2.2 =
        [Event.Output "bash" ["-c", "cat /sys/class/fc_host/host*/port_name"],
         Event.AddPortForHost 7 "FC" "5005076810234567",
         Event.GetHostPort 7 "5005076810234567",
         Event.AddPortForHost 7 "FC" "500507681023aaaa",
         Event.GetHostPort 7 "500507681023aaaa"]) := by
  refine ⟨⟨by decide, by decide⟩, ⟨by decide, by decide⟩, ⟨by decide, by decide⟩⟩

/-- Claim C15, the code at the failing input.  The node has the port
`5005076810234567`, and the registered port list of the request `stageIqn` has
one element, an iSCSI name that ends with these digits: the port is not an
element of the list.  `NodeStageVolume` tests whether the port occurs in the
"hostPorts" text, finds it inside the iSCSI name, and makes no registration
call for it; it registers the other port and succeeds. -/
theorem NodeStageVolume_skips_unregistered_port :
    (getPortName hostEnv hostNodeA).1 = ["5005076810234567", "500507681023aaaa"] ∧
    registeredPorts (mapGet stageIqn.PublishContext "hostPorts") =
      ["iqn.1994-05.com.redhat:5005076810234567"] ∧
    "5005076810234567" ∉ registeredPorts (mapGet stageIqn.PublishContext "hostPorts") ∧
    Contains (mapGet stageIqn.PublishContext "hostPorts") "5005076810234567" = true ∧
    (NodeStageVolume hostEnv stageIqn hostNodeA).1 = .ok () ∧
    (NodeStageVolume hostEnv stageIqn hostNodeA).2.2 =
      [Event.Output "bash" ["-c", "cat /sys/class/fc_host/host*/port_name"],
       Event.AddPortForHost 7 "FC" "500507681023aaaa",
       Event.GetHostPort 7 "500507681023aaaa"] := by
  refine ⟨by decide, by decide, by decide, by decide, by decide, by decide⟩

end StageContract

/-! ## The REST client -/

section RestClient

/-- `parseError` reports an error with a text exactly for a value that is not
`nil`. -/
theorem parseError_iserr (j : Json) : (parseError j).2 = true ↔ j ≠ Json.null := by
  cases j with
  | null => simp [parseError]
  | object ms =>
    simp only [parseError, ne_eq, reduceCtorEq, not_false_eq_true, iff_true]
    split
    · split <;> rfl
    · rfl
  | bool b => simp [parseError]
  | number t => simp [parseError]
  | string t => simp [parseError]
  | array l => simp [parseError]

/-- `checkResponse` returns a nil result together with a nil error in exactly
one case: the response is neither 401 nor 503, there is no transport error, an
expected type is given and the body cannot be decoded into it. -/
theorem checkResponse_nil_nil_iff (res : Response) (err : Option String)
    (resptpye : Option (Json → Bool)) :
    checkResponse res err resptpye = (none, none) ↔
      res.StatusCode ≠ 401 ∧ res.StatusCode ≠ 503 ∧ err = none ∧
      ∃ accepts, resptpye = some accepts ∧
        ∃ e, unmarshalApiResponse accepts res.Body = .error e := by
  unfold checkResponse
  by_cases h1 : res.StatusCode = 401
  · simp [h1]
  · by_cases h2 : res.StatusCode = 503
    · simp [h1, h2]
    · simp only [h1, h2, if_false, ne_eq, not_false_eq_true, true_and]
      cases err with
      | some e => simp
      | none =>
        simp only [true_and]
        cases resptpye with
        | none =>
          simp only [reduceCtorEq, false_and, exists_false, iff_false]
          cases hB : res.Body with
          | error er => simp
          | ok j =>
            cases j with
            | object ms =>
              simp only
              split
              · simp
              · split <;> simp
            | null => simp
            | bool b => simp
            | number t => simp
            | string t => simp
            | array l => simp
        | some accepts =>
          simp only [Option.some.injEq, exists_eq_left']
          cases hU : unmarshalApiResponse accepts res.Body with
          | error e => simp
          | ok p =>
            obtain ⟨result, error⟩ := p
            simp only [reduceCtorEq, exists_false, iff_false]
            split
            · simp
            · cases result <;> simp

/-- Claim C16, the code at the failing input.  For a response with status 200,
no transport error, an expected type and a body that is not JSON,
`checkResponse` returns a nil result and a nil error; without an expected type
the same response gives the decoding error. -/
theorem checkResponse_invalid_body_nil_nil :
    resNotJson.StatusCode = 200 ∧
    resNotJson.Body = .error "invalid character '<' looking for beginning of value" ∧
    checkResponse resNotJson none (some fun _ => true) = (none, none) ∧
    checkResponse resNotJson none none =
      (none, some "invalid character '<' looking for beginning of value") :=
  ⟨rfl, rfl, rfl, rfl⟩

end RestClient

end FcNode
